import Mathlib

/-!
Verification of the mini-redis server core (src/app of AlexeyVatolin/mini-redis).

Shallow embedding conventions:
* Byte strings are modelled as `List Char` (the repository only moves ASCII
  command bytes; `bytes.decode(errors="ignore")` is the identity there).
* Wall-clock instants (`datetime.datetime.now()`, `time.time_ns()//1_000_000`)
  are explicit `Int`/`Nat` millisecond parameters.
* A Python run that raises an uncaught exception (IndexError, ValueError,
  AttributeError, TypeError, KeyError) is modelled by a dedicated `crash`
  constructor carrying whatever state had already been mutated.
* `asyncio` events and timeouts are real-time concurrency; only their
  synchronous state effects are modelled.
-/

namespace MiniRedis

/-- RESP frame values, mirroring the value types of `app/redis_serde.py`:
`SimpleString`, `ErrorString`, Python `int`, `BulkString`, Python `None`
(the null bulk), `list`, and `RDBString`. -/
inductive RValue where
  | simple (s : String)
  | error (s : String)
  | int (n : Int)
  | bulk (s : String)
  | nullB
  | array (elems : List RValue)
  | rdb (payload : List Char)

/-- The two CRLF bytes `b"\x5cr\x5cn"` used as RESP frame terminators. -/
def crlf : List Char := ['\r', '\n']

/-- Decimal digit character for `k < 10` (explicit table, as produced by
Python decimal formatting). -/
def digitChar (k : Nat) : Char :=
  match k with
  | 0 => '0' | 1 => '1' | 2 => '2' | 3 => '3' | 4 => '4'
  | 5 => '5' | 6 => '6' | 7 => '7' | 8 => '8' | 9 => '9'
  | _ => 'X'

/-- Decimal printing loop (`fuel` bounds the recursion depth; `n + 1` is
always enough since `n / 10 < n` for positive `n`). -/
def natDigitsAux : Nat → Nat → List Char
  | 0, _ => []
  | fuel + 1, n =>
    if n < 10 then [digitChar n]
    else natDigitsAux fuel (n / 10) ++ [digitChar (n % 10)]

/-- Decimal representation of a natural number, as Python's `f"{n}"` prints it. -/
def natDigits (n : Nat) : List Char := natDigitsAux (n + 1) n

/-- Decimal representation of a Python `int` (sign prepended when negative). -/
def intDigits (n : Int) : List Char :=
  if n < 0 then '-' :: natDigits n.natAbs else natDigits n.natAbs

mutual

/-- `RedisSerializer._serialize_impl` (src/app/redis_serde.py lines 21-39):
each supported value kind is rendered to its RESP byte form.  The branch
order of the Python `isinstance` chain is reflected by the constructors. -/
def serializeImpl : RValue → List Char
  | .bulk s => '$' :: natDigits s.length ++ crlf ++ s.data ++ crlf
  | .simple s => '+' :: s.data ++ crlf
  | .error s => '-' :: s.data ++ crlf
  | .rdb payload => '$' :: natDigits payload.length ++ crlf ++ payload
  | .nullB => '$' :: '-' :: '1' :: crlf
  | .array l => '*' :: natDigits l.length ++ crlf ++ serializeList l
  | .int n => ':' :: intDigits n ++ crlf

/-- Serialization of the elements of a `list` message, concatenated in order
(the `b"".join(...)` of the array branch). -/
def serializeList : List RValue → List Char
  | [] => []
  | v :: rest => serializeImpl v ++ serializeList rest

end

/-- Result of one `RedisDeserializer._deserialize_impl` call:
`crash` models an uncaught Python exception, `nothing` the `(None, None)`
returns (empty input or unknown type byte), `val v e` a parsed value with
the end index the method returns. -/
inductive DRes where
  | crash
  | nothing
  | val (v : RValue) (endIdx : Nat)

/-- Is a byte an ASCII decimal digit (`ord("0") <= b <= ord("9")`)? -/
def isDigitB (c : Char) : Bool := decide ('0' ≤ c ∧ c ≤ '9')

/-- The scan loop of `_parse_number`: first index `≥ i` holding a non-digit,
walking the suffix of the buffer; `none` models the IndexError raised when
the scan runs off the end of the buffer. -/
def scanDigitsAux : List Char → Nat → Option Nat
  | [], _ => none
  | c :: rest, i => if isDigitB c then scanDigitsAux rest (i + 1) else some i

/-- Digit scan of `_parse_number` starting at absolute index `i`. -/
def scanDigits (msg : List Char) (i : Nat) : Option Nat :=
  scanDigitsAux (msg.drop i) i

/-- Numeric value of a digit slice, as Python `int` reads a digit string. -/
def digitsVal (ds : List Char) : Nat :=
  ds.foldl (fun a c => 10 * a + (c.toNat - '0'.toNat)) 0

/-- `RedisDeserializer._parse_number` (lines 75-79): scan digits from
`start`, return the parsed number and the end index.  `none` models the two
possible exceptions: IndexError when the digit scan leaves the buffer, and
the `int("")` ValueError when no digit is present at `start`. -/
def parseNumber (msg : List Char) (start : Nat) : Option (Nat × Nat) :=
  match scanDigits msg start with
  | none => none
  | some e =>
    if e = start then none
    else some (digitsVal ((msg.drop start).take (e - start)), e)

/-- `bytes.index(b"\x5cr\x5cn")` scanning: index of the first CRLF pair at or
after position `i`, `none` when absent (the ValueError of `index`). -/
def findCrlfList : List Char → Nat → Option Nat
  | [], _ => none
  | [_], _ => none
  | a :: b :: rest, i =>
    if a = '\r' ∧ b = '\n' then some i else findCrlfList (b :: rest) (i + 1)

/-- Byte at absolute index `start` (Python `message[start_index]`). -/
def charAt (msg : List Char) (start : Nat) : Option Char :=
  (msg.drop start).head?

/-- The `while len(arr) < num_elements` loop of the `*` branch, abstracted
over the element parser `f` (one `_deserialize_impl` call at the given
index).  Each element is parsed at `e + 2`; a non-value result makes the
loop crash (the Python code would add `None + 2` - a TypeError - on the
next step or at the final return).  When done it returns
`(arr, end_index + 2)`. -/
def parseElems (f : Nat → DRes) : Nat → Nat → List RValue → DRes
  | 0, e, acc => .val (.array acc.reverse) (e + 2)
  | r + 1, e, acc =>
    match f (e + 2) with
    | .val v e2 => parseElems f r e2 (v :: acc)
    | _ => .crash

/-- `RedisDeserializer._deserialize_impl` (lines 52-73).  `fuel` only bounds
the recursion depth (Python recurses natively); all theorems supply enough
fuel.  Branches: empty remainder returns `(None, None)`; an index past the
end raises IndexError; `*` parses a count then that many elements, resuming
two bytes after each element's end; `$` parses a size then slices the
payload (Python slices clamp at the buffer end); `+` searches CRLF from the
START of the buffer (`message.index`), as the source does; any other first
byte prints a message and returns `(None, None)`. -/
def deserializeImpl : Nat → List Char → Nat → DRes
  | 0, _, _ => .crash
  | fuel + 1, msg, start =>
    if start = msg.length then .nothing
    else if msg.length < start then .crash
    else
      match charAt msg start with
      | none => .crash
      | some c =>
        if c = '*' then
          match parseNumber msg (start + 1) with
          | none => .crash
          | some (n, e) => parseElems (fun s => deserializeImpl fuel msg s) n e []
        else if c = '$' then
          match parseNumber msg (start + 1) with
          | none => .crash
          | some (size, e) =>
            .val (.bulk ⟨(msg.drop (e + 2)).take size⟩) (e + 2 + size)
        else if c = '+' then
          match findCrlfList msg 0 with
          | none => .crash
          | some e =>
            .val (.simple ⟨(msg.drop (start + 1)).take (e - (start + 1))⟩) (e + 2)
        else .nothing

/-- Deserialization of the first frame of a buffer, with ample fuel
(`len + 1` always exceeds the nesting depth of any parse). -/
def deserialize (msg : List Char) : DRes :=
  deserializeImpl (msg.length + 1) msg 0

/-- Parsed value of a deserialization result (`None` for the non-value
outcomes), i.e. what `Message.parsed` would hold for the first frame. -/
def DRes.valueOf : DRes → Option RValue
  | .val v _ => some v
  | _ => none

/-- No CRLF pair occurs inside the byte list (the condition under which
`bytes.index` finds exactly the terminator of a simple-string frame). -/
def noCrlf : List Char → Bool
  | [] => true
  | [_] => true
  | a :: b :: rest => !(decide (a = '\r' ∧ b = '\n')) && noCrlf (b :: rest)

/-- The frame values whose encoding the deserializer can actually invert:
a simple string without an internal CRLF, a bulk string, or a flat array
of bulk strings (the only array shape this protocol ever parses - every
command is an array of bulks).  Error strings and integers hit the
unknown-type branch, the null bulk crashes `_parse_number`, and arrays
with non-bulk elements misparse (`+` searches CRLF from index 0). -/
inductive Decodable : RValue → Prop
  | simple (s : String) (h : noCrlf s.data = true) : Decodable (.simple s)
  | bulk (s : String) : Decodable (.bulk s)
  | arrayBulks (l : List String) : Decodable (.array (l.map RValue.bulk))

/-- The exact byte count `_deserialize_impl` consumes for one encoded
frame: the full frame, except that a top-level bulk string's trailing CRLF
is left unconsumed (`end_index + 2 + size` stops before it). -/
def consumedLen : RValue → Nat
  | .bulk s => (serializeImpl (.bulk s)).length - 2
  | v => (serializeImpl v).length

/-! ### Python string primitives

The embedded code calls `str.lower`, `str.split("-")`, `str.endswith("*")`,
`"-" in key` and `int(...)`.  These are modelled by structural functions on
the character list of the string (the repository only feeds them ASCII
command bytes; Python `int()` extras such as surrounding whitespace,
underscores or non-ASCII digits never occur there and are not modelled). -/

/-- ASCII `str.lower` of one character. -/
def pyLowerChar (c : Char) : Char :=
  if 'A' ≤ c ∧ c ≤ 'Z' then Char.ofNat (c.toNat + 32) else c

/-- ASCII `str.lower`. -/
def pyLower (s : String) : String := ⟨s.data.map pyLowerChar⟩

/-- `"-" in key`. -/
def pyContainsDash (s : String) : Bool := s.data.contains '-'

/-- `key.endswith("*")`: the last character is `'*'`. -/
def pyEndsWithStar (s : String) : Bool := s.data.getLast? = some '*'

/-- Accumulator loop for `key.split("-")`. -/
def splitDashAux : List Char → List Char → List String
  | [], cur => [⟨cur.reverse⟩]
  | c :: rest, cur =>
    if c = '-' then String.mk cur.reverse :: splitDashAux rest []
    else splitDashAux rest (c :: cur)

/-- `key.split("-")` (Python keeps empty pieces; `"".split("-") == [""]`). -/
def pySplitDash (s : String) : List String := splitDashAux s.data []

/-- Digit-string value for Python `int`: `none` on an empty or non-digit
list. -/
def digitsOnly? (l : List Char) : Option Nat :=
  match l with
  | [] => none
  | _ => go l 0
where
  go : List Char → Nat → Option Nat
    | [], acc => some acc
    | c :: rest, acc =>
      if isDigitB c then go rest (10 * acc + (c.toNat - '0'.toNat)) else none

/-- Python `int(s)` for the strings this codebase can feed it. -/
def pyIntStr? (s : String) : Option Int :=
  match s.data with
  | '-' :: rest => (digitsOnly? rest).map fun n => -(n : Int)
  | '+' :: rest => (digitsOnly? rest).map fun n => (n : Int)
  | l => (digitsOnly? l).map fun n => (n : Int)

/-- Python `int(s)` where `s` is a piece produced by splitting on `"-"`
(so it cannot contain `'-'`; only a `'+'` sign can occur). -/
def pyNatStr? (s : String) : Option Nat :=
  match s.data with
  | '+' :: rest => digitsOnly? rest
  | l => digitsOnly? l

/-! ## The store and stream container (src/app/storage.py, src/app/schemas.py) -/

/-- `StreamKey` (storage.py lines 17-23): an entry id `(timestamp, sequence)`.
The Python fields are typed `int | float`; entry keys produced by `xadd` are
always non-negative integers, so entry keys carry plain `Nat` here (the
infinite sequence number appears only in `xrange` bounds, see `RangeKey`). -/
structure StreamKey where
  timestamp : Nat
  sequence : Nat
deriving Repr, DecidableEq

/-- `str(StreamKey)`: the `f"{timestamp}-{sequence_number}"` rendering. -/
def StreamKey.render (k : StreamKey) : String :=
  toString k.timestamp ++ "-" ++ toString k.sequence

/-- Lexicographic `≤` of the `order=True` dataclass (tuple comparison). -/
def StreamKey.le (a b : StreamKey) : Prop :=
  a.timestamp < b.timestamp ∨ (a.timestamp = b.timestamp ∧ a.sequence ≤ b.sequence)

instance : LE StreamKey := ⟨StreamKey.le⟩

/-- Lexicographic `<` of the `order=True` dataclass (tuple comparison). -/
def StreamKey.lt (a b : StreamKey) : Prop :=
  a.timestamp < b.timestamp ∨ (a.timestamp = b.timestamp ∧ a.sequence < b.sequence)

instance : LT StreamKey := ⟨StreamKey.lt⟩

instance (a b : StreamKey) : Decidable (a ≤ b) :=
  decidable_of_iff
    (a.timestamp < b.timestamp ∨ (a.timestamp = b.timestamp ∧ a.sequence ≤ b.sequence))
    Iff.rfl

instance (a b : StreamKey) : Decidable (a < b) :=
  decidable_of_iff
    (a.timestamp < b.timestamp ∨ (a.timestamp = b.timestamp ∧ a.sequence < b.sequence))
    Iff.rfl

/-- An `xrange` bound as `Stream._make_key` builds it: a timestamp and a
sequence number that may be the float `math.inf` (`⊤`). -/
structure RangeKey where
  timestamp : Nat
  sequence : WithTop Nat
deriving DecidableEq

/-- Tuple comparison `bound ≤ entry key` (int vs `math.inf` compare as in
Python: every int is below `inf`). -/
def RangeKey.leKey (b : RangeKey) (k : StreamKey) : Bool :=
  decide (b.timestamp < k.timestamp ∨
    (b.timestamp = k.timestamp ∧ b.sequence ≤ (k.sequence : WithTop Nat)))

/-- Tuple comparison `entry key ≤ bound`. -/
def StreamKey.leRange (k : StreamKey) (b : RangeKey) : Bool :=
  decide (k.timestamp < b.timestamp ∨
    (k.timestamp = b.timestamp ∧ (k.sequence : WithTop Nat) ≤ b.sequence))

/-- `EntryId` (schemas.py lines 37-54): the watermark type used by `XREAD`.
Its components can be `-1` (the resolution of `"$"` on a missing stream),
hence `Int` fields. -/
structure EntryId where
  timestamp : Int
  sequence : Int
deriving Repr, DecidableEq

/-- Lexicographic `<` of the `order=True` dataclass `EntryId`. -/
def EntryId.lt (a b : EntryId) : Prop :=
  a.timestamp < b.timestamp ∨ (a.timestamp = b.timestamp ∧ a.sequence < b.sequence)

instance : LT EntryId := ⟨EntryId.lt⟩

instance (a b : EntryId) : Decidable (a < b) :=
  decidable_of_iff
    (a.timestamp < b.timestamp ∨ (a.timestamp = b.timestamp ∧ a.sequence < b.sequence))
    Iff.rfl

/-- View of a stream entry key as an `EntryId` (the components are the same
numbers; `XREAD` compares watermarks against entry keys). -/
def StreamKey.toEntryId (k : StreamKey) : EntryId :=
  ⟨(k.timestamp : Int), (k.sequence : Int)⟩

/-- The `RedisError` subclasses of src/app/exception.py that `_vaidate_id`
raises, plus `pyCrash` for uncaught non-Redis exceptions (a `ValueError`
from `int(...)` on an unparsable id). -/
inductive XaddErr where
  | tooLow
  | orderErr
  | pyCrash
deriving Repr, DecidableEq

/-- The `message` class attribute of each `RedisError` subclass
(src/app/exception.py lines 5-10); `pyCrash` has none (uncaught). -/
def XaddErr.message : XaddErr → String
  | .tooLow => "The ID specified in XADD must be greater than 0-0"
  | .orderErr => "The ID specified in XADD is equal or smaller than the target stream top item"
  | .pyCrash => ""

/-- A `Stream` object (storage.py lines 26-29): the `_entries` dict in
insertion order and `_last_entry`, initially `(0, 0)`. -/
structure StreamT where
  entries : List (StreamKey × List String)
  last : StreamKey
deriving Repr, DecidableEq

/-- `Stream()` - a fresh stream. -/
def StreamT.empty : StreamT := ⟨[], ⟨0, 0⟩⟩

/-- `Stream._vaidate_id` (storage.py lines 31-52), with the current wall
clock in milliseconds for the `"*"` branch.  Exactly as in the source:
`"*"` takes `(now_ms, 0)`; a spec ending in `"*"` parses the part before
the first `"-"` and auto-picks the sequence, with NO comparison against
`_last_entry`; only the fully explicit spec is checked, first against
`(0,0)` and then against `_last_entry`. -/
def Stream.vaidateId (last : StreamKey) (nowMs : Nat) (id : String) :
    Except XaddErr StreamKey :=
  if id = "*" then .ok ⟨nowMs, 0⟩
  else if pyEndsWithStar id then
    match (pySplitDash id).head?.bind pyNatStr? with
    | none => .error .pyCrash
    | some ts =>
      if last.timestamp = ts then .ok ⟨ts, last.sequence + 1⟩
      else .ok ⟨ts, 0⟩
  else
    match pySplitDash id with
    | [a, b] =>
      match pyNatStr? a, pyNatStr? b with
      | some ts, some sq =>
        if ts ≤ 0 ∧ sq ≤ 0 then .error .tooLow
        else if ts < last.timestamp ∨
            (ts = last.timestamp ∧ sq ≤ last.sequence) then .error .orderErr
        else .ok ⟨ts, sq⟩
      | _, _ => .error .pyCrash
    | _ => .error .pyCrash

/-- Python `dict` assignment `self._entries[key] = value`: replace in place
when the key exists (keeping its position), else append. -/
def dictInsert (entries : List (StreamKey × List String)) (k : StreamKey)
    (v : List String) : List (StreamKey × List String) :=
  match entries with
  | [] => [(k, v)]
  | (k0, v0) :: rest =>
    if k0 = k then (k, v) :: rest else (k0, v0) :: dictInsert rest k v

/-- `Stream.xadd` (storage.py lines 54-58): validate the id, set
`_last_entry`, store the field values, return the key (the source returns
`str(key)`, rendered by `StreamKey.render` at the reply layer). -/
def Stream.xadd (s : StreamT) (id : String) (value : List String) (nowMs : Nat) :
    Except XaddErr (StreamKey × StreamT) :=
  match Stream.vaidateId s.last nowMs id with
  | .error e => .error e
  | .ok key => .ok (key, ⟨dictInsert s.entries key value, key⟩)

/-- The `position` literal of `Stream._make_key`. -/
inductive BoundPos where
  | start
  | stop
deriving DecidableEq

/-- `Stream._make_key` (storage.py lines 69-75).  A key without `"-"` parses
as a bare timestamp with sequence `inf` (end side) or `0` (start side); any
other key is split on `"-"` and both parts fed to `int`.  `none` models the
uncaught exceptions: `int("-")`, `int("+")`, `int("")` all raise ValueError,
and a split into ≠ 2 parts raises TypeError on unpacking. -/
def Stream.makeKey (key : String) (pos : BoundPos) : Option RangeKey :=
  if pyContainsDash key = false then
    match pyNatStr? key with
    | some ts => some ⟨ts, match pos with | .stop => ⊤ | .start => (0 : WithTop Nat)⟩
    | none => none
  else
    match pySplitDash key with
    | [a, b] =>
      match pyNatStr? a, pyNatStr? b with
      | some x, some y => some ⟨x, (y : WithTop Nat)⟩
      | _, _ => none
    | _ => none

/-- `Stream.xrange` (storage.py lines 60-67): resolve both bounds, then keep
the entries of the dict (in insertion order) whose key lies between them.
`none` models the crash while resolving a bound. -/
def Stream.xrange (s : StreamT) (start stop : String) :
    Option (List (StreamKey × List String)) :=
  match Stream.makeKey start .start, Stream.makeKey stop .stop with
  | some lo, some hi =>
    some (s.entries.filter fun e => lo.leKey e.1 && e.1.leRange hi)
  | _, _ => none

/-- Modelled from the spec: `Stream.max_key` is called by
`EntryId.from_string` (src/app/schemas.py line 48) but is not defined
anywhere under src/.  Spec §4.3: an `after` of `"$"` means "the current
`last_id`", resolved at query time against the stream snapshot. -/
def Stream.maxKey (s : StreamT) : EntryId :=
  s.last.toEntryId

/-- Modelled from the spec: `Stream.xread` is called by
`XReadCommand._xread` (src/app/command_handler.py line 216) but is not
defined anywhere under src/.  Spec §4.3: "`xread(after)` returns entries
with `id > after` (strict)". -/
def Stream.xread (s : StreamT) (after : EntryId) : List (StreamKey × List String) :=
  s.entries.filter fun e => decide (after < e.1.toEntryId)

/-- `EntryId.from_string` (schemas.py lines 42-51): `"$"` resolves to
`(-1,-1)` when the stream does not exist and to the stream's `max_key()`
otherwise; anything else must split on `"-"` into exactly two `int`s
(`none` models the ValueError of a failed unpack or parse). -/
def EntryId.fromString (start : String) (stream : Option StreamT) : Option EntryId :=
  if start = "$" then
    match stream with
    | none => some ⟨-1, -1⟩
    | some s => some (Stream.maxKey s)
  else
    match pySplitDash start with
    | [a, b] =>
      match pyNatStr? a, pyNatStr? b with
      | some t, some q => some ⟨(t : Int), (q : Int)⟩
      | _, _ => none
    | _ => none

/-- A stored value: either an opaque string or a `Stream` object (the two
value shapes the command handlers put into `Storage`). -/
inductive Val where
  | str (s : String)
  | stream (st : StreamT)
deriving Repr, DecidableEq

/-- A stored slot: `StorageValue` (storage.py lines 11-14) - a value plus an
optional absolute expiry instant (milliseconds). -/
structure StorageEntry where
  value : Val
  expiredTime : Option Int
deriving Repr, DecidableEq

/-- `Storage` (storage.py lines 78-100): a Python dict from key to
`StorageValue`, kept in insertion order. -/
structure StorageT where
  entries : List (String × StorageEntry)
deriving Repr, DecidableEq

/-- Raw dict lookup (no expiry logic). -/
def StorageT.getRaw (s : StorageT) (k : String) : Option StorageEntry :=
  (s.entries.find? fun e => e.1 = k).map (·.2)

/-- `Storage.__getitem__` (storage.py lines 85-94) at wall clock `now` (ms):
a missing key or an entry whose expiry is not in the future reads as `None`.
(The source also lazily deletes an expired entry; that deletion is invisible
to every later read - reads of an expired slot stay `None` - so lookups are
modelled as pure here.) -/
def StorageT.getLive (s : StorageT) (k : String) (now : Int) : Option Val :=
  match s.getRaw k with
  | none => none
  | some e =>
    match e.expiredTime with
    | none => some e.value
    | some t => if now < t then some e.value else none

/-- `Storage.__setitem__`: dict assignment (replace in place or append). -/
def StorageT.set (s : StorageT) (k : String) (v : StorageEntry) : StorageT :=
  ⟨go s.entries⟩
where
  go : List (String × StorageEntry) → List (String × StorageEntry)
    | [] => [(k, v)]
    | (k0, v0) :: rest => if k0 = k then (k, v) :: rest else (k0, v0) :: go rest

/-- Iteration order of `Storage.__iter__`: the raw dict keys, expired
entries included (no expiry check on iteration). -/
def StorageT.keys (s : StorageT) : List String :=
  s.entries.map (·.1)

/-! ## The server and command engine (src/app/server.py, src/app/command_handler.py)

Commands reach `RedisCommandHandler.handle` as RESP arrays of bulk strings;
a command message is modelled by its string elements plus the byte length
of its raw frame (`Message.size`, which equals the consumed byte count of
the deserialized frame). -/

/-- A parsed inbound command frame: `Message.parsed` (the array of strings)
and `Message.size` (the byte length of `Message.raw`). -/
structure Msg where
  parsed : List String
  size : Nat
deriving Repr, DecidableEq

/-- The whole observable server state touched by command handling.
`isMaster` is the fixed role; `masterId` is the `master_id` replid
(modelled from the spec: `RedisServer` defines no `master_id` member under
src/ although `InfoCommand` and `PsyncCommand` read it; spec §4.6 makes it
a fixed 40-char random id, held abstract here); `offset` is
`RedisServer._offset`; `replicas` maps a replica's peer name to the
`Connection.offset` it last reported (`MasterServer._slave_connections`);
`waitTriggers` holds `(num_replicas, master_offset)` registrations;
`streamTriggers` holds `(key, watermark)` registrations; `config` is the
startup config dict. -/
structure ServerState where
  isMaster : Bool
  masterId : String
  offset : Nat
  replicas : List (Nat × Int)
  waitTriggers : List (Int × Nat)
  streamTriggers : List (String × EntryId)
  config : List (String × String)
  storage : StorageT
deriving Repr, DecidableEq

/-- Outcome of running one command: the state after all side effects plus
the reply frames the handler yielded, or a crash (an uncaught Python
exception; yielded-so-far replies are lost because the list comprehension
in `handle` re-raises before returning). -/
inductive ExecResult where
  | ok (st : ServerState) (replies : List RValue)
  | crash (st : ServerState)

/-- State component of an outcome (defined for both constructors). -/
def ExecResult.state : ExecResult → ServerState
  | .ok st _ => st
  | .crash st => st

/-- Replies written back to the client: a crash writes none. -/
def ExecResult.replies : ExecResult → List RValue
  | .ok _ r => r
  | .crash _ => []

/-- `MasterServer.propagate` / `ICommand._propagate` (server.py lines
102-112, command_handler.py lines 89-93): on a primary, forward the raw
bytes to every replica and `_inc_offset(message.size)`; on a replica the
`isinstance(self._server, MasterServer)` guard makes it a no-op.  The
socket writes (and the pruning of replicas whose socket reset) are I/O and
carry no further modelled state. -/
def ServerState.propagate (st : ServerState) (size : Nat) : ServerState :=
  if st.isMaster then { st with offset := st.offset + size } else st

/-- `MasterServer.count_synced_replicas` (server.py lines 124-132). -/
def ServerState.countSynced (st : ServerState) (offset : Nat) : Nat :=
  (st.replicas.filter fun c => decide ((offset : Int) ≤ c.2)).length

/-- CPython's `for t in lst: ... lst.remove(t)` semantics: removing the
element under the iterator makes the iterator skip the element after it.
`MasterServer._check_wait_triggers` (server.py lines 137-141) iterates with
removal like this. -/
def pyIterRemove (cond : α → Bool) : List α → List α
  | [] => []
  | a :: rest =>
    if cond a then
      match rest with
      | [] => []
      | b :: rest2 => b :: pyIterRemove cond rest2
    else a :: pyIterRemove cond rest

/-- `MasterServer._check_wait_triggers`: fire (set the event of) and remove
every wait trigger whose condition holds; the event itself is an `asyncio`
object, so only the removal is state. -/
def ServerState.checkWaitTriggers (st : ServerState) : ServerState :=
  { st with waitTriggers :=
      pyIterRemove (fun t => decide ((t.1 : Int) ≤ (st.countSynced t.2 : Int))) st.waitTriggers }

/-- `MasterServer.store_offset` (server.py lines 114-122): update the
reported offset of a known replica and re-check wait triggers; an unknown
peer is only logged. -/
def ServerState.storeOffset (st : ServerState) (peer : Nat) (offset : Int) : ServerState :=
  if (st.replicas.find? fun c => c.1 = peer).isSome then
    ServerState.checkWaitTriggers
      { st with replicas := st.replicas.map fun c => if c.1 = peer then (c.1, offset) else c }
  else st

/-- Modelled from the spec: `register_stream_trigger` is called by
`XReadCommand._xread` (command_handler.py line 204) and `WaitCommand`
(line 297) but no server class under src/ defines it (`MasterServer` only
has `register_trigger`).  Spec §4.6 keeps wait triggers and stream
triggers in separate lists; registration appends. -/
def ServerState.registerWaitTrigger (st : ServerState) (n : Int) (target : Nat) : ServerState :=
  { st with waitTriggers := st.waitTriggers ++ [(n, target)] }

/-- Modelled from the spec: stream-trigger registration (see
`ServerState.registerWaitTrigger`); spec §4.6: a stream trigger carries
`(key, watermark_entry_id)`. -/
def ServerState.registerStreamTrigger (st : ServerState) (key : String) (wm : EntryId) :
    ServerState :=
  { st with streamTriggers := st.streamTriggers ++ [(key, wm)] }

/-- Modelled from the spec: `check_stream_triggers` is called by
`XAddCommand._xadd` (command_handler.py line 169) but is not defined
anywhere under src/.  Spec §4.6: "After every `XADD`, scan triggers and
fire those whose `key` matches and whose watermark is strictly less than
the new entry id; remove fired triggers." -/
def ServerState.checkStreamTriggers (st : ServerState) (key : String) (newId : StreamKey) :
    ServerState :=
  { st with streamTriggers :=
      st.streamTriggers.filter fun t => !(t.1 = key && decide (t.2 < newId.toEntryId)) }

/-- The hardcoded empty-database RDB blob `default_rdb` of
command_handler.py lines 19-21 (its base64 literal decoded). -/
def defaultRdb : List Char :=
  ([82, 69, 68, 73, 83, 48, 48, 49, 49, 250, 9, 114, 101, 100, 105, 115, 45, 118,
    101, 114, 5, 55, 46, 50, 46, 48, 250, 10, 114, 101, 100, 105, 115, 45, 98,
    105, 116, 115, 192, 64, 250, 5, 99, 116, 105, 109, 101, 194, 109, 8, 188,
    101, 250, 8, 117, 115, 101, 100, 45, 109, 101, 109, 194, 176, 196, 16, 0,
    250, 8, 97, 111, 102, 45, 98, 97, 115, 101, 192, 0, 255, 240, 110, 59, 254,
    192, 255, 90, 162] : List Nat).map Char.ofNat

/-- The `REPLCONF GETACK *` message `WaitCommand` builds through
`Message.from_parsed` (command_handler.py lines 299-303): its size is the
byte length of its own serialization. -/
def getackMsg : Msg :=
  { parsed := ["REPLCONF", "GETACK", "*"]
    size := (serializeImpl (.array [.bulk "REPLCONF", .bulk "GETACK", .bulk "*"])).length }

/-- Placeholder for `str(<Stream object>)` - `GET` on a stream-valued key
builds `BulkString(stream)`, which stringifies the object header with its
memory address; the address is elided.  No claim touches this reply. -/
def streamObjRepr : String := "<app.storage.Stream object>"

/-- `PingCommand.execute`. -/
def PingCommand.execute (st : ServerState) : ExecResult :=
  .ok st [.simple "PONG"]

/-- `EchoCommand.execute`: replies the second element; a missing element is
an IndexError. -/
def EchoCommand.execute (st : ServerState) (msg : Msg) : ExecResult :=
  match msg.parsed with
  | _ :: x :: _ => .ok st [.bulk x]
  | _ => .crash st

/-- `SetCommand.execute` (command_handler.py lines 115-137): both arities
propagate (primary only) before storing; the `PX` arity parses the expiry
with `int(...)` - argument evaluation precedes `_set_value`, so an
unparsable expiry crashes before any propagation or store. -/
def SetCommand.execute (now : Int) (st : ServerState) (msg : Msg) : ExecResult :=
  match msg.parsed.tail with
  | [key, value] =>
    let st := st.propagate msg.size
    .ok { st with storage := st.storage.set key ⟨.str value, none⟩ } [.simple "OK"]
  | [key, value, px, expiredTime] =>
    if px = "px" then
      match pyIntStr? expiredTime with
      | none => .crash st
      | some t =>
        let st := st.propagate msg.size
        .ok { st with storage := st.storage.set key ⟨.str value, some (now + t)⟩ }
          [.simple "OK"]
    else .ok st [.error "Wrong number of arguments for'set' command"]
  | _ => .ok st [.error "Wrong number of arguments for'set' command"]

/-- `GetCommand.execute` (lines 140-147): `BulkString(value) if value else
None` - a missing key, an expired entry AND an empty-string value all reply
the null bulk; a stream value is truthy and stringifies as the object. -/
def GetCommand.execute (now : Int) (st : ServerState) (msg : Msg) : ExecResult :=
  match msg.parsed.tail with
  | [key] =>
    match st.storage.getLive key now with
    | none => .ok st [.nullB]
    | some (.str s) => .ok st (if s = "" then [.nullB] else [.bulk s])
    | some (.stream _) => .ok st [.bulk streamObjRepr]
  | _ => .ok st [.error "Wrong number of arguments for 'get' command"]

/-- `XAddCommand.execute` + `_xadd` (lines 150-170): on matching arity the
command propagates FIRST, then looks the stream up (creating a fresh one
for a missing key), appends, updates stream triggers, and replies the new
id; a `RedisError` from the validator is caught and replied as an error
string; `xadd` on a string-valued key raises AttributeError (uncaught -
crash, with the propagation side effect already applied). -/
def XAddCommand.execute (now : Int) (st : ServerState) (msg : Msg) : ExecResult :=
  match msg.parsed.tail with
  | streamKey :: entryId :: entries =>
    let st := st.propagate msg.size
    let st :=
      if (st.storage.getLive streamKey now).isNone then
        { st with storage := st.storage.set streamKey ⟨.stream StreamT.empty, none⟩ }
      else st
    match st.storage.getLive streamKey now with
    | some (.stream s0) =>
      match Stream.xadd s0 entryId entries now.toNat with
      | .error .pyCrash => .crash st
      | .error e => .ok st [.error e.message]
      | .ok (key, s1) =>
        let expiry := (st.storage.getRaw streamKey).bind (·.expiredTime)
        let st := { st with storage := st.storage.set streamKey ⟨.stream s1, expiry⟩ }
        let st := st.checkStreamTriggers streamKey key
        .ok st [.bulk key.render]
    | _ => .crash st
  | _ => .ok st [.error "Wrong number of arguments for 'xadd' command"]

/-- Presentation of one stream entry inside an `XRANGE`/`XREAD` reply:
`[BulkString(str(key)), [BulkString(v), ...]]` after `bulk_string_wrap`. -/
def wrapEntry (e : StreamKey × List String) : RValue :=
  .array [.bulk e.1.render, .array (e.2.map .bulk)]

/-- `XRangeCommand.execute` (lines 173-180): a missing key makes
`self._storage[...]` return `None` and `.xrange` raise AttributeError; so
does a string value; an empty result list is wrapped to `None`
(`bulk_string_wrap` returns `None` on a falsy argument). -/
def XRangeCommand.execute (now : Int) (st : ServerState) (msg : Msg) : ExecResult :=
  match msg.parsed.tail with
  | [streamKey, start, stop] =>
    match st.storage.getLive streamKey now with
    | some (.stream s) =>
      match Stream.xrange s start stop with
      | none => .crash st
      | some l =>
        .ok st [if l = [] then .nullB else .array (l.map wrapEntry)]
    | _ => .crash st
  | _ => .ok st [.error "Wrong number of arguments for 'xrange' command"]

/-- `utils.to_pairs`: zip the first half of the list against the second. -/
def toPairs (values : List String) : List (String × String) :=
  (values.take (values.length / 2)).zip (values.drop (values.length / 2))

/-- Watermark resolution for one `XREAD` pair: `EntryId.from_string(start,
self._storage[key])` - `none` models the crashes (`"$"` against a
string-valued key calls `max_key` on a `str`; a malformed explicit
watermark fails `int`/unpacking). -/
def resolveWatermark (st : ServerState) (now : Int) (p : String × String) : Option EntryId :=
  match st.storage.getLive p.1 now with
  | some (.str _) => if p.2 = "$" then none else EntryId.fromString p.2 none
  | some (.stream s) => EntryId.fromString p.2 (some s)
  | none => EntryId.fromString p.2 none

/-- The result loop of `XReadCommand._xread` (lines 211-221): skip missing
keys, crash on string-valued keys, keep `[key, entries]` for non-empty
reads; an entirely empty result becomes `[None]`. -/
def xreadCollect (st : ServerState) (now : Int) :
    List (String × EntryId) → Option (List (String × List (StreamKey × List String)))
  | [] => some []
  | (key, wm) :: rest =>
    match st.storage.getLive key now with
    | none => xreadCollect st now rest
    | some (.str _) => none
    | some (.stream s) =>
      match xreadCollect st now rest with
      | none => none
      | some acc =>
        let items := Stream.xread s wm
        some (if items = [] then acc else (key, items) :: acc)

/-- The trigger-registration step of a blocking `_xread` (lines 198-209):
register a stream trigger for the FIRST resolved pair (the preceding
`resolved = []` IndexError case is handled by the caller). -/
def xreadRegister (st : ServerState) (resolved : List (String × EntryId)) (block : Bool) :
    ServerState :=
  if block then
    match resolved.head? with
    | some h => st.registerStreamTrigger h.1 h.2
    | none => st
  else st

/-- The reply assembly of `_xread`: run the result loop and wrap. -/
def xreadReply (st : ServerState) (now : Int) (resolved : List (String × EntryId)) :
    ExecResult :=
  match xreadCollect st now resolved with
  | none => .crash st
  | some [] => .ok st [.array [.nullB]]
  | some result =>
    .ok st [.array (result.map fun r => .array [.bulk r.1, .array (r.2.map wrapEntry)])]

/-- `XReadCommand.execute` (lines 183-221).  Both arities resolve all
watermarks first (any failure crashes); the `BLOCK` arity additionally
registers a stream trigger for the FIRST pair (IndexError when there is
none) and then waits - the wait itself is real time; the modelled state is
the one seen on an immediate wake, which is also the only part any claim
observes.  (The source parses the timeout with `float(...)`; only integral
timeouts are modelled.) -/
def XReadCommand.execute (now : Int) (st : ServerState) (msg : Msg) : ExecResult :=
  match msg.parsed.tail with
  | "streams" :: streams => run st streams false
  | "block" :: blockTime :: "streams" :: streams =>
    match pyIntStr? blockTime with
    | none => .crash st
    | some _ => run st streams true
  | _ => .ok st [.error "Wrong number of arguments for 'xread' command"]
where
  /-- Shared `_xread` body; the blocking form registers a stream trigger
  for the first pair before waiting (IndexError when there is no pair). -/
  run (st : ServerState) (streams : List String) (block : Bool) : ExecResult :=
    let pairs := toPairs streams
    match pairs.mapM fun p => (resolveWatermark st now p).map (fun wm => (p.1, wm)) with
    | none => .crash st
    | some resolved =>
      if block ∧ resolved = [] then .crash st
      else xreadReply (xreadRegister st resolved block) now resolved

/-- `TypeCommand.execute` (lines 224-231): NOTE the source has no `else`
before the final `yield`, so `+none` is emitted after `+string`/`+stream`
as a second reply frame. -/
def TypeCommand.execute (now : Int) (st : ServerState) (msg : Msg) : ExecResult :=
  match msg.parsed.tail with
  | key :: _ =>
    let first : List RValue :=
      match st.storage.getLive key now with
      | some (.str _) => [.simple "string"]
      | some (.stream _) => [.simple "stream"]
      | none => []
    .ok st (first ++ [.simple "none"])
  | _ => .crash st

/-- `InfoCommand.execute` (lines 234-243). -/
def InfoCommand.execute (st : ServerState) (msg : Msg) : ExecResult :=
  match msg.parsed.tail.map pyLower with
  | ["replication"] =>
    let role := if st.isMaster then "master" else "slave"
    .ok st [.bulk ("# Replication\nrole:" ++ role ++ "\nmaster_replid:" ++ st.masterId
      ++ "\nmaster_repl_offset:" ++ toString st.offset)]
  | _ => .ok st [.error "Wrong arguments for 'info' command"]

/-- `ReplconfCommand.execute` (lines 246-266): `GETACK *` replies the ACK
triple with the CURRENT offset; `ACK <n>` on a primary records the
replica's offset (unknown peers are only logged) and re-checks wait
triggers, yielding nothing; on a replica `ACK` does nothing. -/
def ReplconfCommand.execute (st : ServerState) (msg : Msg) (peer : Nat) : ExecResult :=
  match msg.parsed.tail.map pyLower with
  | ["getack", "*"] =>
    .ok st [.array [.bulk "REPLCONF", .bulk "ACK", .bulk (toString st.offset)]]
  | ["ack", offset] =>
    if st.isMaster then
      match pyIntStr? offset with
      | none => .crash st
      | some n => .ok (st.storeOffset peer n) []
    else .ok st []
  | ["listening-port", _] => .ok st [.simple "OK"]
  | ["capa", "psync2"] => .ok st [.simple "OK"]
  | _ => .ok st [.error "Wrong arguments for'replconf' command"]

/-- `PsyncCommand.execute` (lines 269-276). -/
def PsyncCommand.execute (st : ServerState) (msg : Msg) : ExecResult :=
  match msg.parsed.tail with
  | ["?", "-1"] =>
    .ok st [.simple ("FULLRESYNC " ++ st.masterId ++ " " ++ toString st.offset),
      .rdb defaultRdb]
  | _ => .ok st [.error "Wrong arguments for 'psync' command"]

/-- `WaitCommand.execute` (lines 279-311).  On a replica the role guard
only YIELDS an error and falls through: the two-argument arity then hits
`count_synced_replicas`, which the base server class does not define -
AttributeError, so the whole command crashes (other arities yield the role
error plus the usage error).  On a primary: parse both arguments with
`int`; clamp `n` by the replica count; reply immediately with the FULL
replica count when already satisfied; otherwise register a wait trigger,
broadcast `REPLCONF GETACK *` via `propagate` - WHICH ADVANCES THE PRIMARY
OFFSET by the broadcast's byte length - block (real time, not modelled),
and reply the count of replicas synced to the pre-broadcast offset. -/
def WaitCommand.execute (st : ServerState) (msg : Msg) : ExecResult :=
  match msg.parsed.tail with
  | [numReplicas, timeout] =>
    match pyIntStr? numReplicas, pyIntStr? timeout with
    | some n, some _t =>
      if st.isMaster then
        let n := min n (st.replicas.length : Int)
        let masterOffset := st.offset
        let synced := st.countSynced masterOffset
        if n ≤ (synced : Int) then .ok st [.int (st.replicas.length : Int)]
        else
          let st := st.registerWaitTrigger n masterOffset
          let st := st.propagate getackMsg.size
          .ok st [.int (st.countSynced masterOffset : Int)]
      else .crash st
    | _, _ => .crash st
  | _ =>
    if st.isMaster then .ok st [.error "Wrong arguments for 'wait' command"]
    else .ok st [.error "Only available for master",
      .error "Wrong arguments for 'wait' command"]

/-- `ConfigCommand.execute` (lines 314-322): an unknown key yields an error
but still falls through to `self._server.config[key]`, whose KeyError
crashes the command (and discards the yielded error). -/
def ConfigCommand.execute (st : ServerState) (msg : Msg) : ExecResult :=
  match msg.parsed.tail.map pyLower with
  | ["get", key] =>
    match (st.config.find? fun c => c.1 = key).map (·.2) with
    | none => .crash st
    | some v =>
      let pre : List RValue :=
        if key = "dir" ∨ key = "dbfilename" then []
        else [.error ("Unknown config key " ++ key)]
      .ok st (pre ++ [.array [.bulk key, .bulk v]])
  | _ => .ok st [.error "Wrong arguments for 'config' command"]

/-- `KeysCommand.execute` (lines 325-330): iterates the RAW store (expired
entries included) for `*`, and unconditionally yields the (un-interpolated,
the source lacks the f-prefix) unknown-subcommand error afterwards. -/
def KeysCommand.execute (st : ServerState) (msg : Msg) : ExecResult :=
  match msg.parsed.tail with
  | sub :: _ =>
    let err : RValue := .error "Unknown keys subcommand {subcommand}"
    if pyLower sub = "*" then
      .ok st [.array (st.storage.keys.map .bulk), err]
    else .ok st [err]
  | _ => .crash st

/-- The command table of `RedisCommandHandler.handle` (lines 36-51). -/
def knownCommands : List String :=
  ["ping", "echo", "set", "get", "xadd", "xrange", "xread", "type", "info",
   "replconf", "psync", "wait", "config", "keys"]

/-- Dispatch to the chosen command class's `execute`. -/
def executeCmd (now : Int) (st : ServerState) (msg : Msg) (peer : Nat) : ExecResult :=
  let cmd := pyLower (msg.parsed.headD "")
  if cmd = "ping" then PingCommand.execute st
  else if cmd = "echo" then EchoCommand.execute st msg
  else if cmd = "set" then SetCommand.execute now st msg
  else if cmd = "get" then GetCommand.execute now st msg
  else if cmd = "xadd" then XAddCommand.execute now st msg
  else if cmd = "xrange" then XRangeCommand.execute now st msg
  else if cmd = "xread" then XReadCommand.execute now st msg
  else if cmd = "type" then TypeCommand.execute now st msg
  else if cmd = "info" then InfoCommand.execute st msg
  else if cmd = "replconf" then ReplconfCommand.execute st msg peer
  else if cmd = "psync" then PsyncCommand.execute st msg
  else if cmd = "wait" then WaitCommand.execute st msg
  else if cmd = "config" then ConfigCommand.execute st msg
  else if cmd = "keys" then KeysCommand.execute st msg
  else .ok st []

/-- `RedisCommandHandler.handle` (lines 32-70) for an array message: an
empty array raises IndexError on `parsed[0]`; an unknown command replies
the error BEFORE the role filter (so it is visible on both roles); then the
chosen command runs in full (side effects included) and the reply list is
returned as-is on a primary, while a replica forwards it only for
`REPLCONF`, `INFO` and `GET` and returns `[]` for every other command. -/
def RedisCommandHandler.handle (now : Int) (st : ServerState) (msg : Msg) (peer : Nat) :
    ExecResult :=
  match msg.parsed.head? with
  | none => .crash st
  | some first =>
    let cmd := pyLower first
    if (knownCommands.contains cmd) = false then .ok st [.error "Unknown command"]
    else
      match executeCmd now st msg peer with
      | .crash st2 => .crash st2
      | .ok st2 replies =>
        if st.isMaster then .ok st2 replies
        else if cmd = "replconf" ∨ cmd = "info" ∨ cmd = "get" then .ok st2 replies
        else .ok st2 []

/-- Written from the (amended) spec's words, to be compared with the code:
how much one handled command should advance the primary's replication
offset.  A well-formed replicated write (`SET k v`, `SET k v px t` with a
parsable expiry, `XADD k id ...`) advances it by the command's byte length
- including an `XADD` whose id validation later fails, since propagation
precedes validation; a `WAIT n t` that cannot be satisfied immediately
advances it by the byte length of the `REPLCONF GETACK *` broadcast; every
other command (reads, `REPLCONF`, `PING`, unknown commands, wrong-arity
writes) advances it by nothing. -/
def offsetDeltaSpec (st : ServerState) (msg : Msg) : Nat :=
  match msg.parsed with
  | [] => 0
  | c :: rest =>
    let cmd := pyLower c
    if cmd = "set" then
      match rest with
      | [_, _] => msg.size
      | [_, _, px, t] =>
        if px = "px" then (if (pyIntStr? t).isSome then msg.size else 0) else 0
      | _ => 0
    else if cmd = "xadd" then
      match rest with
      | _ :: _ :: _ => msg.size
      | _ => 0
    else if cmd = "wait" then
      match rest with
      | [n, t] =>
        match pyIntStr? n, pyIntStr? t with
        | some ni, some _ =>
          if min ni (st.replicas.length : Int) ≤ (st.countSynced st.offset : Int) then 0
          else getackMsg.size
        | _, _ => 0
      | _ => 0
    else 0

/-! ## Helper lemmas -/

theorem digitsVal_append (l : List Char) (c : Char) :
    digitsVal (l ++ [c]) = 10 * digitsVal l + (c.toNat - '0'.toNat) := by
  unfold digitsVal
  rw [List.foldl_append]
  rfl

theorem natDigitsAux_sound (fuel : Nat) : ∀ n, n < fuel →
    (∀ c ∈ natDigitsAux fuel n, isDigitB c = true)
    ∧ digitsVal (natDigitsAux fuel n) = n
    ∧ natDigitsAux fuel n ≠ [] := by
  induction fuel with
  | zero => intro n h; omega
  | succ fuel ih =>
    intro n h
    unfold natDigitsAux
    by_cases h10 : n < 10
    · rw [if_pos h10]
      refine ⟨?_, ?_, by simp⟩
      · intro c hc
        simp only [List.mem_singleton] at hc
        subst hc
        interval_cases n <;> decide
      · show digitsVal [digitChar n] = n
        interval_cases n <;> decide
    · rw [if_neg h10]
      have hlt : n / 10 < fuel := by omega
      obtain ⟨ihd, ihv, _⟩ := ih (n / 10) hlt
      have hm : n % 10 < 10 := by omega
      refine ⟨?_, ?_, by simp⟩
      · intro c hc
        rw [List.mem_append] at hc
        rcases hc with hc | hc
        · exact ihd c hc
        · simp only [List.mem_singleton] at hc
          subst hc
          set m := n % 10 with hmdef
          interval_cases m <;> decide
      · rw [digitsVal_append, ihv]
        have : (digitChar (n % 10)).toNat - '0'.toNat = n % 10 := by
          set m := n % 10 with hmdef
          interval_cases m <;> decide
        omega

theorem natDigits_sound (n : Nat) :
    (∀ c ∈ natDigits n, isDigitB c = true)
    ∧ digitsVal (natDigits n) = n
    ∧ natDigits n ≠ [] :=
  natDigitsAux_sound (n + 1) n (by omega)

theorem scanDigitsAux_append (ds : List Char) (hds : ∀ x ∈ ds, isDigitB x = true)
    (c : Char) (hc : isDigitB c = false) (rest : List Char) :
    ∀ i, scanDigitsAux (ds ++ c :: rest) i = some (i + ds.length) := by
  induction ds with
  | nil =>
    intro i
    show scanDigitsAux (c :: rest) i = _
    unfold scanDigitsAux
    rw [hc]
    simp
  | cons d ds ih =>
    intro i
    show scanDigitsAux (d :: (ds ++ c :: rest)) i = _
    unfold scanDigitsAux
    rw [hds d (by simp)]
    simp only [if_true]
    rw [ih (fun x hx => hds x (by simp [hx])) (i + 1)]
    congr 1
    simp
    omega

theorem charAt_append (pre : List Char) (c : Char) (rest : List Char) :
    charAt (pre ++ c :: rest) pre.length = some c := by
  unfold charAt
  rw [List.drop_left]
  rfl


theorem parseNumber_append (pre ds : List Char) (c : Char) (rest : List Char)
    (hne : ds ≠ []) (hds : ∀ x ∈ ds, isDigitB x = true) (hc : isDigitB c = false) :
    parseNumber (pre ++ ds ++ c :: rest) pre.length
      = some (digitsVal ds, pre.length + ds.length) := by
  unfold parseNumber scanDigits
  rw [List.append_assoc, List.drop_left,
    scanDigitsAux_append ds hds c hc rest pre.length]
  dsimp only
  have hlen : ds.length ≠ 0 := fun h => hne (List.length_eq_zero.mp h)
  rw [if_neg (by omega)]
  rw [show pre.length + ds.length - pre.length = ds.length from by omega]
  rw [List.take_left]

theorem deser_bulk_at (fuel : Nat) (pre suf : List Char) (s : String) :
    deserializeImpl (fuel + 1) (pre ++ serializeImpl (.bulk s) ++ suf) pre.length
      = .val (.bulk s) (pre.length + 3 + (natDigits s.length).length + s.length) := by
  have hmsg : pre ++ serializeImpl (.bulk s) ++ suf
      = pre ++ '$' ::
          (natDigits s.length ++ '\r' :: '\n' :: (s.data ++ '\r' :: '\n' :: suf)) := by
    simp [serializeImpl, crlf]
  rw [hmsg]
  simp only [deserializeImpl]
  rw [if_neg (by simp [List.length_append])]
  rw [if_neg (by simp [List.length_append])]
  rw [charAt_append]
  dsimp only
  rw [if_neg (by decide), if_pos rfl]
  have hpn := parseNumber_append (pre ++ ['$']) (natDigits s.length) '\r'
    ('\n' :: (s.data ++ '\r' :: '\n' :: suf)) (natDigits_sound s.length).2.2
    (natDigits_sound s.length).1 (by decide)
  rw [show (pre ++ ['$']) ++ natDigits s.length
        ++ '\r' :: ('\n' :: (s.data ++ '\r' :: '\n' :: suf))
      = pre ++ '$' ::
          (natDigits s.length ++ '\r' :: '\n' :: (s.data ++ '\r' :: '\n' :: suf)) from by
    simp] at hpn
  rw [show (pre ++ ['$']).length = pre.length + 1 from by simp] at hpn
  rw [hpn]
  dsimp only
  rw [(natDigits_sound s.length).2.1]
  have hdrop : (pre ++ '$' ::
        (natDigits s.length ++ '\r' :: '\n' :: (s.data ++ '\r' :: '\n' :: suf))).drop
          (pre.length + 1 + (natDigits s.length).length + 2)
      = s.data ++ '\r' :: '\n' :: suf := by
    rw [show pre ++ '$' ::
          (natDigits s.length ++ '\r' :: '\n' :: (s.data ++ '\r' :: '\n' :: suf))
        = (pre ++ '$' :: natDigits s.length ++ ['\r', '\n'])
            ++ (s.data ++ '\r' :: '\n' :: suf) from by simp]
    rw [show pre.length + 1 + (natDigits s.length).length + 2
        = (pre ++ '$' :: natDigits s.length ++ ['\r', '\n']).length from by simp; omega]
    exact List.drop_left _ _
  rw [hdrop]
  rw [show (s.data ++ '\r' :: '\n' :: suf).take s.length = s.data from
    List.take_left' rfl]
  congr 1
  omega



/-- Dict assignment finds its own key. -/
theorem serializeList_cons (v : RValue) (rest : List RValue) :
    serializeList (v :: rest) = serializeImpl v ++ serializeList rest := rfl

theorem parseElems_bulks (fuel : Nat) (msg : List Char) :
    ∀ (l : List String) (pre suf : List Char) (acc : List RValue) (e : Nat),
      msg = pre ++ serializeList (l.map .bulk) ++ suf →
      e + 2 = pre.length →
      parseElems (fun s => deserializeImpl (fuel + 1) msg s) l.length e acc
        = .val (.array (acc.reverse ++ l.map .bulk))
            (e + 2 + (serializeList (l.map .bulk)).length) := by
  intro l
  induction l with
  | nil =>
    intro pre suf acc e hmsg he
    show DRes.val (.array acc.reverse) (e + 2) = _
    simp [serializeList]
  | cons s rest ih =>
    intro pre suf acc e hmsg he
    have hmsg2 : msg = pre ++ serializeImpl (.bulk s)
        ++ (serializeList (rest.map .bulk) ++ suf) := by
      rw [hmsg]
      simp [serializeList_cons]
    have hbulk : deserializeImpl (fuel + 1) msg pre.length
        = .val (.bulk s) (pre.length + 3 + (natDigits s.length).length + s.length) := by
      rw [hmsg2]
      exact deser_bulk_at fuel pre (serializeList (rest.map .bulk) ++ suf) s
    show (match deserializeImpl (fuel + 1) msg (e + 2) with
      | .val v e2 => parseElems (fun s2 => deserializeImpl (fuel + 1) msg s2)
          rest.length e2 (v :: acc)
      | _ => .crash) = _
    rw [he, hbulk]
    dsimp only
    have hlen : (serializeImpl (.bulk s)).length
        = 5 + (natDigits s.length).length + s.length := by
      simp [serializeImpl, crlf]
      omega
    rw [ih (pre ++ serializeImpl (.bulk s)) suf (RValue.bulk s :: acc)
      (pre.length + 3 + (natDigits s.length).length + s.length)
      (by rw [hmsg2]; simp)
      (by simp [hlen]; omega)]
    rw [show (RValue.bulk s :: acc).reverse = acc.reverse ++ [RValue.bulk s] from by simp]
    rw [List.append_assoc]
    rw [show ([RValue.bulk s] ++ rest.map RValue.bulk)
        = (s :: rest).map RValue.bulk from rfl]
    congr 1
    rw [show (s :: rest).map RValue.bulk = RValue.bulk s :: rest.map RValue.bulk from rfl,
      serializeList_cons]
    simp [hlen]
    omega

theorem noCrlf_cons (c : Char) (l : List Char) (hc : c ≠ '\r') (h : noCrlf l = true) :
    noCrlf (c :: l) = true := by
  cases l with
  | nil => rfl
  | cons b l2 =>
    show (!(decide (c = '\r' ∧ b = '\n')) && noCrlf (b :: l2)) = true
    rw [h]
    simp [hc]

theorem findCrlfList_append (l rest : List Char) :
    noCrlf l = true → ∀ i, findCrlfList (l ++ '\r' :: '\n' :: rest) i = some (i + l.length) := by
  induction l with
  | nil =>
    intro _ i
    simp [findCrlfList]
  | cons a l ih =>
    intro h i
    cases l with
    | nil =>
      show findCrlfList (a :: '\r' :: '\n' :: rest) i = some (i + 1)
      unfold findCrlfList
      rw [if_neg (by simp)]
      simp [findCrlfList]
    | cons b l2 =>
      have h' := h
      simp only [noCrlf, Bool.and_eq_true, Bool.not_eq_true', decide_eq_false_iff_not] at h'
      obtain ⟨h1, h2⟩ := h'
      show findCrlfList (a :: b :: (l2 ++ '\r' :: '\n' :: rest)) i
        = some (i + (a :: b :: l2).length)
      unfold findCrlfList
      rw [if_neg h1]
      rw [show (b :: (l2 ++ '\r' :: '\n' :: rest))
          = ((b :: l2) ++ '\r' :: '\n' :: rest) from rfl]
      rw [ih h2 (i + 1)]
      congr 1
      simp
      omega

theorem deser_simple_top (s : String) (h : noCrlf s.data = true) :
    deserialize (serializeImpl (.simple s)) = .val (.simple s) (s.length + 3) := by
  have hshape : serializeImpl (.simple s) = ('+' :: s.data) ++ '\r' :: '\n' :: [] := by
    simp [serializeImpl, crlf]
  have hnc : noCrlf ('+' :: s.data) = true := noCrlf_cons '+' s.data (by decide) h
  unfold deserialize
  rw [hshape]
  simp only [deserializeImpl]
  rw [if_neg (by simp)]
  rw [if_neg (by simp)]
  rw [show charAt (('+' :: s.data) ++ '\r' :: '\n' :: []) 0 = some '+' from rfl]
  dsimp only
  rw [if_neg (by decide), if_neg (by decide), if_pos rfl]
  rw [findCrlfList_append ('+' :: s.data) [] hnc 0]
  dsimp only
  have hdrop : (('+' :: s.data) ++ '\r' :: '\n' :: []).drop (0 + 1)
      = s.data ++ '\r' :: '\n' :: [] := rfl
  rw [hdrop]
  rw [show 0 + ('+' :: s.data).length - (0 + 1) = s.data.length from by simp]
  rw [List.take_left]
  show DRes.val (.simple ⟨s.data⟩) _ = _
  congr 1
  all_goals
    have hsl : s.length = s.data.length := rfl
    simp only [List.length_cons]
    omega

theorem deser_bulk_top (s : String) :
    deserialize (serializeImpl (.bulk s))
      = .val (.bulk s) ((serializeImpl (.bulk s)).length - 2) := by
  have hlen : (serializeImpl (.bulk s)).length
      = 5 + (natDigits s.length).length + s.length := by
    simp [serializeImpl, crlf]
    omega
  have hb := deser_bulk_at (serializeImpl (.bulk s)).length [] [] s
  rw [List.append_nil, List.nil_append] at hb
  unfold deserialize
  rw [show (([] : List Char)).length = 0 from rfl] at hb
  rw [hb]
  congr 1
  omega

theorem parseElems_congr (f g : Nat → DRes) (h : ∀ i, f i = g i) :
    ∀ (n e : Nat) (acc : List RValue), parseElems f n e acc = parseElems g n e acc := by
  intro n
  induction n with
  | zero => intro e acc; rfl
  | succ n ih =>
    intro e acc
    show (match f (e + 2) with
        | DRes.val v e2 => parseElems f n e2 (v :: acc)
        | _ => DRes.crash)
      = (match g (e + 2) with
        | DRes.val v e2 => parseElems g n e2 (v :: acc)
        | _ => DRes.crash)
    rw [h (e + 2)]
    cases g (e + 2) with
    | val v e2 => exact ih e2 (v :: acc)
    | crash => rfl
    | nothing => rfl

theorem deser_array_bulks (l : List String) :
    deserialize (serializeImpl (.array (l.map .bulk)))
      = .val (.array (l.map .bulk)) ((serializeImpl (.array (l.map .bulk))).length) := by
  have hshape2 : serializeImpl (.array (l.map RValue.bulk))
      = '*' :: (natDigits l.length ++ '\r' :: '\n' :: serializeList (l.map RValue.bulk)) := by
    simp [serializeImpl, crlf]
  have hd := natDigits_sound l.length
  unfold deserialize
  rw [hshape2]
  rw [deserializeImpl]
  rw [if_neg (by simp)]
  rw [if_neg (by simp)]
  rw [show charAt ('*' :: (natDigits l.length ++ '\r' :: '\n' :: serializeList (l.map RValue.bulk))) 0 = some '*' from rfl]
  dsimp only
  rw [if_pos rfl]
  have hpn := parseNumber_append ['*'] (natDigits l.length) '\r'
    ('\n' :: serializeList (l.map RValue.bulk)) hd.2.2 hd.1 (by decide)
  rw [show ['*'] ++ natDigits l.length ++ '\r' :: ('\n' :: serializeList (l.map RValue.bulk))
    = '*' :: (natDigits l.length ++ '\r' :: '\n' :: serializeList (l.map RValue.bulk)) from by simp] at hpn
  rw [show (['*'] : List Char).length = 1 from rfl] at hpn
  rw [show (0 : Nat) + 1 = 1 from rfl, hpn]
  dsimp only
  rw [hd.2.1]
  have hflen : ('*' :: (natDigits l.length ++ '\r' :: '\n' :: serializeList (l.map RValue.bulk))).length = (('*' :: (natDigits l.length ++ '\r' :: '\n' :: serializeList (l.map RValue.bulk))).length - 1) + 1 := by simp
  rw [parseElems_congr
    (fun s => deserializeImpl (('*' :: (natDigits l.length ++ '\r' :: '\n' :: serializeList (l.map RValue.bulk))).length) ('*' :: (natDigits l.length ++ '\r' :: '\n' :: serializeList (l.map RValue.bulk))) s)
    (fun s => deserializeImpl ((('*' :: (natDigits l.length ++ '\r' :: '\n' :: serializeList (l.map RValue.bulk))).length - 1) + 1) ('*' :: (natDigits l.length ++ '\r' :: '\n' :: serializeList (l.map RValue.bulk))) s)
    (fun i => by rw [← hflen])]
  rw [parseElems_bulks (('*' :: (natDigits l.length ++ '\r' :: '\n' :: serializeList (l.map RValue.bulk))).length - 1) ('*' :: (natDigits l.length ++ '\r' :: '\n' :: serializeList (l.map RValue.bulk))) l
    ('*' :: natDigits l.length ++ ['\r', '\n']) [] [] (1 + (natDigits l.length).length)
    (by simp) (by simp; omega)]
  congr 1
  all_goals simp
  all_goals omega

theorem StorageT.getRaw_set_self (s : StorageT) (k : String) (v : StorageEntry) :
    (s.set k v).getRaw k = some v := by
  show (StorageT.mk (StorageT.set.go k v s.entries)).getRaw k = some v
  induction s.entries with
  | nil => simp [StorageT.set.go, StorageT.getRaw, List.find?]
  | cons hd tl ih =>
    by_cases hk : hd.1 = k
    · simp [StorageT.set.go, hk, StorageT.getRaw, List.find?]
    · simpa [StorageT.set.go, hk, StorageT.getRaw, List.find?] using ih

/-- Liveness of the slot a dict assignment just wrote. -/
theorem StorageT.getLive_set_self (s : StorageT) (k : String) (v : Val) (t now : Int) :
    (s.set k ⟨v, some t⟩).getLive k now = if now < t then some v else none := by
  unfold StorageT.getLive
  rw [StorageT.getRaw_set_self]

/-- The dataclass tuple order, spelled out. -/
theorem StreamKey.le_iff (x y : StreamKey) :
    x ≤ y ↔ (x.timestamp < y.timestamp ∨
      (x.timestamp = y.timestamp ∧ x.sequence ≤ y.sequence)) := Iff.rfl

/-- The dataclass tuple strict order, spelled out. -/
theorem StreamKey.lt_iff (x y : StreamKey) :
    x < y ↔ (x.timestamp < y.timestamp ∨
      (x.timestamp = y.timestamp ∧ x.sequence < y.sequence)) := Iff.rfl

/-- Dict assignment with a fresh key appends. -/
theorem dictInsert_of_fresh (entries : List (StreamKey × List String)) (k : StreamKey)
    (v : List String) (h : ∀ e ∈ entries, e.1 ≠ k) :
    dictInsert entries k v = entries ++ [(k, v)] := by
  induction entries with
  | nil => rfl
  | cons hd tl ih =>
    unfold dictInsert
    rw [if_neg (h hd (by simp))]
    rw [ih fun e he => h e (by simp [he])]
    rfl

/-- `handle` forwards the whole command outcome whenever the command is one
of the reply-visible three (or the server is a primary). -/
theorem handle_eq_executeCmd (now : Int) (st : ServerState) (msg : Msg) (peer : Nat)
    (first : String) (h2 : msg.parsed.head? = some first)
    (h3 : knownCommands.contains (pyLower first) = true)
    (h4 : st.isMaster = true ∨
      pyLower first = "replconf" ∨ pyLower first = "info" ∨ pyLower first = "get") :
    RedisCommandHandler.handle now st msg peer = executeCmd now st msg peer := by
  unfold RedisCommandHandler.handle
  rw [h2]
  simp only [h3, Bool.true_eq_false, if_false]
  cases hr : executeCmd now st msg peer with
  | ok st2 r =>
    rcases h4 with h4 | h4
    · simp [h4]
    · by_cases hm : st.isMaster <;> simp [hm, h4]
  | crash st2 => rfl

/-! ## Claim theorems -/

/-- C10: for every key whose stored value is the empty string, `GET k`
replies with the null bulk (`$-1`) instead of a zero-length bulk string -
exactly the reply an absent key produces, so at the public interface an
empty value is indistinguishable from an absent key.  The hypothesis covers
both sides of the indistinguishability at once. -/
theorem c10_empty_get_null (now : Int) (st : ServerState) (k : String) (peer sz : Nat)
    (h : st.storage.getLive k now = some (.str "") ∨ st.storage.getLive k now = none) :
    (RedisCommandHandler.handle now st ⟨["get", k], sz⟩ peer).replies = [.nullB] := by
  rw [handle_eq_executeCmd now st ⟨["get", k], sz⟩ peer "get" rfl rfl
    (Or.inr (Or.inr (Or.inr rfl)))]
  show (GetCommand.execute now st ⟨["get", k], sz⟩).replies = [.nullB]
  unfold GetCommand.execute
  rcases h with h | h <;> simp [h, ExecResult.replies]

/-- Witness for C10: a store holding `k ↦ ""` (live, no expiry) replies the
null bulk to `GET k`. -/
theorem c10_empty_get_null_witness :
    (RedisCommandHandler.handle 0
      ⟨true, "r", 0, [], [], [], [], ⟨[("k", ⟨.str "", none⟩)]⟩⟩
      ⟨["get", "k"], 23⟩ 7).replies = [.nullB] :=
  c10_empty_get_null 0 ⟨true, "r", 0, [], [], [], [], ⟨[("k", ⟨.str "", none⟩)]⟩⟩
    "k" 7 23 (Or.inl rfl)

/-- C9 counterexample: the claim promises that after `SET k v PX t` every
read within `t` ms returns `v`; for `v = ""` (stored successfully, `+OK`)
a read 50 ms into the 100 ms window replies the null bulk, not the empty
bulk string. -/
theorem c9_counterexample :
    (executeCmd 0 ⟨true, "r", 0, [], [], [], [], ⟨[]⟩⟩
        ⟨["set", "k", "", "px", "100"], 33⟩ 7).replies = [.simple "OK"]
    ∧ (RedisCommandHandler.handle 50
        (executeCmd 0 ⟨true, "r", 0, [], [], [], [], ⟨[]⟩⟩
          ⟨["set", "k", "", "px", "100"], 33⟩ 7).state
        ⟨["get", "k"], 23⟩ 7).replies = [.nullB]
    ∧ [RValue.nullB] ≠ [RValue.bulk ""] := by
  refine ⟨rfl, rfl, ?_⟩
  intro hcontra
  injection hcontra with h1 _
  exact RValue.noConfusion h1

/-- C9 amended: after `SET k v PX t` succeeds with a NONEMPTY `v`, `GET k`
replies the bulk `v` for any read strictly within `t` ms of the set and the
null bulk for any read at or after expiry; an expired entry never surfaces
its stored value.  (For `v = ""` the source replies the null bulk even
inside the window - the empty value is indistinguishable from absence, see
the C10 theorem.) -/
theorem c9_amended_set_px_get (now : Int) (st : ServerState) (k v tStr : String)
    (t : Int) (peer sz : Nat)
    (hM : st.isMaster = true) (hv : v ≠ "") (ht : pyIntStr? tStr = some t) :
    ∃ st1, RedisCommandHandler.handle now st ⟨["set", k, v, "px", tStr], sz⟩ peer
        = .ok st1 [.simple "OK"]
      ∧ ∀ (nowR : Int) (peer2 sz2 : Nat),
          (RedisCommandHandler.handle nowR st1 ⟨["get", k], sz2⟩ peer2).replies
            = if nowR < now + t then [.bulk v] else [.nullB] := by
  rw [handle_eq_executeCmd now st ⟨["set", k, v, "px", tStr], sz⟩ peer "set" rfl rfl
    (Or.inl hM)]
  have hprop : st.propagate sz = { st with offset := st.offset + sz } := by
    simp [ServerState.propagate, hM]
  have hset : executeCmd now st ⟨["set", k, v, "px", tStr], sz⟩ peer
      = .ok { st with
          offset := st.offset + sz
          storage := st.storage.set k ⟨.str v, some (now + t)⟩ }
        [.simple "OK"] := by
    show SetCommand.execute now st ⟨["set", k, v, "px", tStr], sz⟩ = _
    unfold SetCommand.execute
    simp only [List.tail_cons]
    rw [ht, hprop]
    simp
  refine ⟨_, hset, fun nowR peer2 sz2 => ?_⟩
  rw [handle_eq_executeCmd nowR _ ⟨["get", k], sz2⟩ peer2 "get" rfl rfl
    (Or.inr (Or.inr (Or.inr rfl)))]
  show (GetCommand.execute nowR _ ⟨["get", k], sz2⟩).replies = _
  unfold GetCommand.execute
  simp only [List.tail_cons]
  rw [StorageT.getLive_set_self]
  by_cases hw : nowR < now + t <;> simp [hw, hv, ExecResult.replies]

/-- Witness for C9 amended: `SET k vv PX 100` at `now = 0`, then reads at
50 ms and 150 ms. -/
theorem c9_amended_set_px_get_witness :
    ∃ st1, RedisCommandHandler.handle 0 ⟨true, "r", 0, [], [], [], [], ⟨[]⟩⟩
        ⟨["set", "k", "vv", "px", "100"], 33⟩ 7 = .ok st1 [.simple "OK"]
      ∧ ∀ (nowR : Int) (peer2 sz2 : Nat),
          (RedisCommandHandler.handle nowR st1 ⟨["get", "k"], sz2⟩ peer2).replies
            = if nowR < 0 + 100 then [.bulk "vv"] else [.nullB] :=
  c9_amended_set_px_get 0 ⟨true, "r", 0, [], [], [], [], ⟨[]⟩⟩ "k" "vv" "100" 100 7 33
    rfl (by simp) (by rfl)

/-- C2 counterexample: the claim lists `PING` among the commands whose
replies a replica writes back; on a replica the handler does yield `+PONG`,
but the engine filter (command_handler.py lines 61-68) returns `[]` because
`PING` is not one of `REPLCONF`/`INFO`/`GET`. -/
theorem c2_counterexample :
    RedisCommandHandler.handle 0 ⟨false, "r", 0, [], [], [], [], ⟨[]⟩⟩
        ⟨["ping"], 14⟩ 7
      = .ok ⟨false, "r", 0, [], [], [], [], ⟨[]⟩⟩ []
    ∧ executeCmd 0 ⟨false, "r", 0, [], [], [], [], ⟨[]⟩⟩ ⟨["ping"], 14⟩ 7
      = .ok ⟨false, "r", 0, [], [], [], [], ⟨[]⟩⟩ [.simple "PONG"] :=
  ⟨rfl, rfl⟩

/-- C2 amended: on a replica the engine returns the handler's replies
exactly when the command is `REPLCONF`, `INFO` or `GET`; replies to every
other known command - `PING`, `ECHO`, `XREAD`, `XRANGE`, `TYPE`, `KEYS`,
`CONFIG` included, and in particular writes propagated from the primary -
are suppressed (`[]`); an unknown command's error reply is returned on both
roles. -/
theorem c2_amended_visibility (now : Int) (st : ServerState) (msg : Msg) (peer : Nat)
    (first : String) (hR : st.isMaster = false) (h2 : msg.parsed.head? = some first) :
    (knownCommands.contains (pyLower first) = true →
      (RedisCommandHandler.handle now st msg peer).replies
        = if pyLower first = "replconf" ∨ pyLower first = "info" ∨ pyLower first = "get"
          then (executeCmd now st msg peer).replies
          else [])
    ∧ (knownCommands.contains (pyLower first) = false →
      RedisCommandHandler.handle now st msg peer = .ok st [.error "Unknown command"]) := by
  constructor
  · intro h3
    by_cases h4 : pyLower first = "replconf" ∨ pyLower first = "info" ∨ pyLower first = "get"
    · rw [handle_eq_executeCmd now st msg peer first h2 h3 (Or.inr h4)]
      simp [h4]
    · unfold RedisCommandHandler.handle
      rw [h2]
      simp only [h3, Bool.true_eq_false, if_false]
      cases hr : executeCmd now st msg peer with
      | ok st2 r => simp [hR, h4, ExecResult.replies]
      | crash st2 => simp [ExecResult.replies]
  · intro h3
    unfold RedisCommandHandler.handle
    rw [h2]
    simp [h3]
    intro hmem
    exact absurd hmem (by simpa using h3)

/-- Witness for C2 amended: a replica suppresses the `TYPE` reply (a known
command outside the visible three). -/
theorem c2_amended_visibility_witness :
    (knownCommands.contains (pyLower "type") = true →
      (RedisCommandHandler.handle 0 ⟨false, "r", 0, [], [], [], [], ⟨[]⟩⟩
          ⟨["type", "k"], 20⟩ 7).replies
        = if pyLower "type" = "replconf" ∨ pyLower "type" = "info" ∨ pyLower "type" = "get"
          then (executeCmd 0 ⟨false, "r", 0, [], [], [], [], ⟨[]⟩⟩ ⟨["type", "k"], 20⟩ 7).replies
          else [])
    ∧ (knownCommands.contains (pyLower "type") = false →
      RedisCommandHandler.handle 0 ⟨false, "r", 0, [], [], [], [], ⟨[]⟩⟩
          ⟨["type", "k"], 20⟩ 7
        = .ok ⟨false, "r", 0, [], [], [], [], ⟨[]⟩⟩ [.error "Unknown command"]) :=
  c2_amended_visibility 0 ⟨false, "r", 0, [], [], [], [], ⟨[]⟩⟩ ⟨["type", "k"], 20⟩ 7
    "type" rfl rfl

/-- C8: `XADD` on a string-valued key on the primary.  The claim (and spec
§3/§7) says: error reply with the canonical wrong-type message, no state
change, nothing propagated, offset unchanged.  The code instead propagates
FIRST (command_handler.py line 154 runs before `_xadd`), so the offset
advances by the command's byte length and the raw command is fanned out to
replicas, and then `stream.xadd` raises an uncaught AttributeError (`str`
has no attribute `xadd`): no reply at all, the connection task dies.  The
store itself is left unmutated. -/
theorem c8_wrong_type_crash :
    RedisCommandHandler.handle 0
        ⟨true, "r", 0, [], [], [], [], ⟨[("k", ⟨.str "v", none⟩)]⟩⟩
        ⟨["xadd", "k", "1-1", "f", "v"], 33⟩ 7
      = .crash ⟨true, "r", 33, [], [], [], [], ⟨[("k", ⟨.str "v", none⟩)]⟩⟩ :=
  rfl

/-- C4 counterexample: after a successful `XADD` returning `e = (5,3)`, a
subsequent `XADD` with spec `"3-*"` resolves to `(3,0) ≤ e` and is ACCEPTED
by the validator (`_vaidate_id` only order-checks fully explicit ids), so
the stream's ids do not strictly increase. -/
theorem c4_counterexample :
    Stream.xadd StreamT.empty "5-3" ["f", "v"] 0
      = .ok (⟨5, 3⟩, ⟨[(⟨5, 3⟩, ["f", "v"])], ⟨5, 3⟩⟩)
    ∧ Stream.xadd ⟨[(⟨5, 3⟩, ["f", "v"])], ⟨5, 3⟩⟩ "3-*" ["g", "w"] 0
      = .ok (⟨3, 0⟩, ⟨[(⟨5, 3⟩, ["f", "v"]), (⟨3, 0⟩, ["g", "w"])], ⟨3, 0⟩⟩)
    ∧ (⟨3, 0⟩ : StreamKey) ≤ ⟨5, 3⟩ :=
  ⟨rfl, rfl, by decide⟩

/-- C4 amended: only for a FULLY EXPLICIT id spec does the validator
guarantee strict growth: any explicit `XADD` that succeeds returns an id
strictly above the previous `last_id` (equivalently, every explicit id
`≤ last_id` is rejected), and `last_id` becomes the new id.  The wildcard
specs `"*"` and `"<ts>-*"` are not compared against `last_id` at all and
can append non-increasing ids (see the counterexample). -/
theorem c4_amended_explicit_monotone (s : StreamT) (id : String) (vals : List String)
    (nowMs : Nat) (k : StreamKey) (s2 : StreamT)
    (hstar : pyEndsWithStar id = false)
    (hok : Stream.xadd s id vals nowMs = .ok (k, s2)) :
    s.last < k ∧ s2.last = k := by
  unfold Stream.xadd at hok
  cases hv : Stream.vaidateId s.last nowMs id with
  | error e => rw [hv] at hok; exact absurd hok (by simp)
  | ok key =>
    rw [hv] at hok
    simp only [Except.ok.injEq, Prod.mk.injEq] at hok
    obtain ⟨hk, hs2⟩ := hok
    subst hk
    subst hs2
    refine ⟨?_, rfl⟩
    by_cases hid : id = "*"
    · rw [hid] at hstar; exact absurd hstar (by decide)
    · unfold Stream.vaidateId at hv
      rw [if_neg hid, if_neg (by simp [hstar])] at hv
      split at hv
      · split at hv
        · split at hv
          · simp at hv
          · split at hv
            · simp at hv
            · simp only [Except.ok.injEq] at hv
              subst hv
              show s.last.timestamp < _ ∨ (s.last.timestamp = _ ∧ s.last.sequence < _)
              dsimp only
              omega
        · simp at hv
      · simp at hv

/-- Witness for C4 amended: the explicit add `"1-1"` on a fresh stream
succeeds and strictly raises `last_id` from `(0,0)` to `(1,1)`. -/
theorem c4_amended_explicit_monotone_witness :
    StreamT.empty.last < (⟨1, 1⟩ : StreamKey)
    ∧ (StreamT.mk [(⟨1, 1⟩, ["f", "v"])] ⟨1, 1⟩).last = ⟨1, 1⟩ :=
  c4_amended_explicit_monotone StreamT.empty "1-1" ["f", "v"] 0 ⟨1, 1⟩
    ⟨[(⟨1, 1⟩, ["f", "v"])], ⟨1, 1⟩⟩ (by decide) rfl

/-- C5: for a fully explicit id spec `"<ts>-<seq>"`, `Stream.xadd`
(via `_vaidate_id`) rejects `(0,0)` with the `StreamIDTooLowError` message,
rejects any id `≤ last_id` with the `StreamIdOrderError` message, and on
success appends `(id, fields)` at the end of the entry dict, sets
`last_id = id` and returns `id`.  (The append form needs every existing
entry key to sit at or below `last_id`, which holds for every stream built
by explicit adds; a fresh id then cannot collide with the dict.) -/
theorem c5_explicit_xadd (s : StreamT) (id a b : String) (ts sq : Nat)
    (vals : List String) (nowMs : Nat)
    (hsplit : pySplitDash id = [a, b]) (ha : pyNatStr? a = some ts)
    (hb : pyNatStr? b = some sq) (hstar : pyEndsWithStar id = false) :
    (ts = 0 ∧ sq = 0 →
      Stream.xadd s id vals nowMs = .error .tooLow
      ∧ XaddErr.message .tooLow = "The ID specified in XADD must be greater than 0-0")
    ∧ (¬(ts = 0 ∧ sq = 0) → (⟨ts, sq⟩ : StreamKey) ≤ s.last →
      Stream.xadd s id vals nowMs = .error .orderErr
      ∧ XaddErr.message .orderErr
          = "The ID specified in XADD is equal or smaller than the target stream top item")
    ∧ (¬(ts = 0 ∧ sq = 0) → s.last < ⟨ts, sq⟩ → (∀ e ∈ s.entries, e.1 ≤ s.last) →
      Stream.xadd s id vals nowMs
        = .ok (⟨ts, sq⟩, ⟨s.entries ++ [(⟨ts, sq⟩, vals)], ⟨ts, sq⟩⟩)) := by
  have hid : id ≠ "*" := by
    intro h; rw [h] at hstar; exact absurd hstar (by decide)
  have hval : Stream.vaidateId s.last nowMs id =
      (if ts ≤ 0 ∧ sq ≤ 0 then .error .tooLow
       else if ts < s.last.timestamp ∨ (ts = s.last.timestamp ∧ sq ≤ s.last.sequence)
       then .error .orderErr else .ok ⟨ts, sq⟩) := by
    unfold Stream.vaidateId
    rw [if_neg hid, if_neg (by simp [hstar])]
    simp only [hsplit, ha, hb]
  refine ⟨fun hz => ⟨?_, rfl⟩, fun hz hle => ⟨?_, rfl⟩, fun hz hlt hinv => ?_⟩
  · unfold Stream.xadd
    rw [hval, if_pos (by omega)]
  · unfold Stream.xadd
    rw [hval, if_neg (by omega)]
    have h2 := (StreamKey.le_iff ⟨ts, sq⟩ s.last).mp hle
    dsimp only at h2
    rw [if_pos h2]
  · unfold Stream.xadd
    have h2 := (StreamKey.lt_iff s.last ⟨ts, sq⟩).mp hlt
    dsimp only at h2
    rw [hval, if_neg (by omega), if_neg (by omega)]
    dsimp only
    rw [dictInsert_of_fresh s.entries ⟨ts, sq⟩ vals]
    intro e he heq
    have h3 := (StreamKey.le_iff e.1 s.last).mp (hinv e he)
    rw [heq] at h3
    dsimp only at h3
    omega

/-- Witness for C5: on a stream whose `last_id` is `(1,1)`, the explicit
add `"1-2"` succeeds, appends and bumps `last_id`. -/
theorem c5_explicit_xadd_witness :
    Stream.xadd ⟨[(⟨1, 1⟩, ["x"])], ⟨1, 1⟩⟩ "1-2" ["f", "v"] 99
      = .ok (⟨1, 2⟩, ⟨[(⟨1, 1⟩, ["x"]), (⟨1, 2⟩, ["f", "v"])], ⟨1, 2⟩⟩) :=
  (c5_explicit_xadd ⟨[(⟨1, 1⟩, ["x"])], ⟨1, 1⟩⟩ "1-2" "1" "2" 1 2 ["f", "v"] 99
    rfl rfl rfl (by decide)).2.2 (by decide) (by decide) (by decide)

/-- C6: `xread` returns exactly the entries with id STRICTLY above the
watermark; a start of `"$"` resolves at query time to the stream's current
`last_id` via `max_key`, and to `(-1,-1)` when the stream does not yet
exist - which is strictly below every possible entry key, so the first
ever append matches.  (`Stream.xread` and `Stream.max_key` are not defined
under src/; they are modelled from spec §4.3 - see their doc comments -
while `EntryId.from_string` is embedded from src/app/schemas.py.) -/
theorem c6_xread_strict :
    (∀ (s : StreamT) (after : EntryId) (e : StreamKey × List String),
      e ∈ Stream.xread s after ↔ e ∈ s.entries ∧ after < e.1.toEntryId)
    ∧ (∀ s : StreamT, EntryId.fromString "$" (some s) = some (Stream.maxKey s)
        ∧ Stream.maxKey s = s.last.toEntryId)
    ∧ EntryId.fromString "$" none = some ⟨-1, -1⟩
    ∧ (∀ k : StreamKey, (⟨-1, -1⟩ : EntryId) < k.toEntryId) := by
  refine ⟨?_, fun s => ⟨rfl, rfl⟩, rfl, ?_⟩
  · intro s after e
    unfold Stream.xread
    rw [List.mem_filter]
    simp
  · intro k
    show ((-1 : Int) < k.toEntryId.timestamp ∨
      ((-1 : Int) = k.toEntryId.timestamp ∧ (-1 : Int) < k.toEntryId.sequence))
    left
    show (-1 : Int) < (k.timestamp : Int)
    omega

/-- C7 counterexample: the claim says a start of `"-"` resolves to `(0,0)`
and an end of `"+"` to `(+∞,+∞)`; in the source `_make_key` feeds both to
`int(...)` (`"-" in "-"` and `"-" not in "+"` both route into a failing
parse), which raises an uncaught ValueError - `XRANGE s - +` crashes
instead of returning the stream's entries. -/
theorem c7_counterexample :
    Stream.xrange ⟨[(⟨1, 1⟩, ["f", "v"])], ⟨1, 1⟩⟩ "-" "+" = none
    ∧ Stream.makeKey "-" .start = none
    ∧ Stream.makeKey "+" .stop = none :=
  ⟨rfl, rfl, rfl⟩

/-- C7 amended: whenever both bounds RESOLVE (a bare `"<ts>"`, which gives
`(ts,0)` on the start side and `(ts,+∞)` on the end side, or an exact
`"<ts>-<seq>"`; the `"-"`/`"+"` shorthands instead raise ValueError),
`xrange` returns exactly the entries whose id lies between the bounds
inclusive, in entry-dict insertion order - which is id-sorted whenever the
entries were inserted in increasing id order (always true for streams built
by explicit adds, but violable via wildcard ids, see the C4 theorems). -/
theorem c7_amended_xrange (s : StreamT) (lo hi : String) (lk hk : RangeKey)
    (hlo : Stream.makeKey lo .start = some lk) (hhi : Stream.makeKey hi .stop = some hk) :
    (∃ l, Stream.xrange s lo hi = some l
      ∧ (∀ e, e ∈ l ↔ e ∈ s.entries ∧ lk.leKey e.1 = true ∧ e.1.leRange hk = true)
      ∧ (List.Pairwise (fun x y => x.1 < y.1) s.entries →
          List.Pairwise (fun x y => x.1 < y.1) l))
    ∧ (∀ (tsStr : String) (ts : Nat), pyNatStr? tsStr = some ts →
        pyContainsDash tsStr = false →
        Stream.makeKey tsStr .start = some ⟨ts, (0 : WithTop Nat)⟩
        ∧ Stream.makeKey tsStr .stop = some ⟨ts, ⊤⟩)
    ∧ (∀ (key x y : String) (xv yv : Nat) (pos : BoundPos), pyContainsDash key = true →
        pySplitDash key = [x, y] → pyNatStr? x = some xv → pyNatStr? y = some yv →
        Stream.makeKey key pos = some ⟨xv, (yv : WithTop Nat)⟩) := by
  refine ⟨⟨s.entries.filter fun e => lk.leKey e.1 && e.1.leRange hk, ?_, ?_, ?_⟩, ?_, ?_⟩
  · unfold Stream.xrange
    rw [hlo, hhi]
  · intro e
    rw [List.mem_filter]
    simp
  · intro hp
    exact List.Pairwise.sublist (List.filter_sublist _) hp
  · intro tsStr ts hts hdash
    constructor <;> (unfold Stream.makeKey; rw [hdash]; simp [hts])
  · intro key x y xv yv pos hdash hsplit hx hy
    unfold Stream.makeKey
    rw [hdash]
    simp [hsplit, hx, hy]

/-- Witness for C7 amended: bounds `"1"` and `"2"` on a two-entry stream. -/
theorem c7_amended_xrange_witness :
    (∃ l, Stream.xrange ⟨[(⟨1, 1⟩, ["a"]), (⟨2, 2⟩, ["b"])], ⟨2, 2⟩⟩ "1" "2" = some l
      ∧ (∀ e, e ∈ l ↔ e ∈ (⟨[(⟨1, 1⟩, ["a"]), (⟨2, 2⟩, ["b"])], ⟨2, 2⟩⟩ : StreamT).entries
          ∧ RangeKey.leKey ⟨1, (0 : WithTop Nat)⟩ e.1 = true
          ∧ StreamKey.leRange e.1 ⟨2, ⊤⟩ = true)
      ∧ (List.Pairwise (fun x y => x.1 < y.1)
            (⟨[(⟨1, 1⟩, ["a"]), (⟨2, 2⟩, ["b"])], ⟨2, 2⟩⟩ : StreamT).entries →
          List.Pairwise (fun x y => x.1 < y.1) l))
    ∧ (∀ (tsStr : String) (ts : Nat), pyNatStr? tsStr = some ts →
        pyContainsDash tsStr = false →
        Stream.makeKey tsStr .start = some ⟨ts, (0 : WithTop Nat)⟩
        ∧ Stream.makeKey tsStr .stop = some ⟨ts, ⊤⟩)
    ∧ (∀ (key x y : String) (xv yv : Nat) (pos : BoundPos), pyContainsDash key = true →
        pySplitDash key = [x, y] → pyNatStr? x = some xv → pyNatStr? y = some yv →
        Stream.makeKey key pos = some ⟨xv, (yv : WithTop Nat)⟩) :=
  c7_amended_xrange ⟨[(⟨1, 1⟩, ["a"]), (⟨2, 2⟩, ["b"])], ⟨2, 2⟩⟩ "1" "2"
    ⟨1, (0 : WithTop Nat)⟩ ⟨2, ⊤⟩ rfl rfl

/-! ### Offset bookkeeping, command by command (toward the C1 theorem) -/

theorem storeOffset_offset (st : ServerState) (p : Nat) (n : Int) :
    (st.storeOffset p n).offset = st.offset := by
  unfold ServerState.storeOffset ServerState.checkWaitTriggers
  split <;> rfl

theorem echo_offset (st : ServerState) (msg : Msg) :
    (EchoCommand.execute st msg).state.offset = st.offset := by
  unfold EchoCommand.execute
  split <;> rfl

theorem get_offset (now : Int) (st : ServerState) (msg : Msg) :
    (GetCommand.execute now st msg).state.offset = st.offset := by
  unfold GetCommand.execute
  repeat' split
  all_goals rfl

theorem xrange_offset (now : Int) (st : ServerState) (msg : Msg) :
    (XRangeCommand.execute now st msg).state.offset = st.offset := by
  unfold XRangeCommand.execute
  repeat' split
  all_goals rfl

theorem xreadRegister_offset (st : ServerState) (resolved : List (String × EntryId))
    (block : Bool) : (xreadRegister st resolved block).offset = st.offset := by
  unfold xreadRegister
  repeat' split
  all_goals rfl

theorem xreadReply_state (st : ServerState) (now : Int)
    (resolved : List (String × EntryId)) : (xreadReply st now resolved).state = st := by
  unfold xreadReply
  repeat' split
  all_goals rfl

theorem xread_offset (now : Int) (st : ServerState) (msg : Msg) :
    (XReadCommand.execute now st msg).state.offset = st.offset := by
  have hrun : ∀ streams block,
      (XReadCommand.execute.run now st streams block).state.offset = st.offset := by
    intro streams block
    unfold XReadCommand.execute.run
    dsimp only
    repeat' split
    all_goals try rfl
    all_goals rw [xreadReply_state, xreadRegister_offset]
  unfold XReadCommand.execute
  repeat' split
  all_goals first
    | rfl
    | exact hrun _ _

theorem type_offset (now : Int) (st : ServerState) (msg : Msg) :
    (TypeCommand.execute now st msg).state.offset = st.offset := by
  unfold TypeCommand.execute
  repeat' split
  all_goals rfl

theorem info_offset (st : ServerState) (msg : Msg) :
    (InfoCommand.execute st msg).state.offset = st.offset := by
  unfold InfoCommand.execute
  split <;> rfl

theorem replconf_offset (st : ServerState) (msg : Msg) (peer : Nat) :
    (ReplconfCommand.execute st msg peer).state.offset = st.offset := by
  unfold ReplconfCommand.execute
  repeat' split
  all_goals first
    | rfl
    | exact storeOffset_offset st _ _

theorem psync_offset (st : ServerState) (msg : Msg) :
    (PsyncCommand.execute st msg).state.offset = st.offset := by
  unfold PsyncCommand.execute
  split <;> rfl

theorem config_offset (st : ServerState) (msg : Msg) :
    (ConfigCommand.execute st msg).state.offset = st.offset := by
  unfold ConfigCommand.execute
  repeat' split
  all_goals rfl

theorem keys_offset (st : ServerState) (msg : Msg) :
    (KeysCommand.execute st msg).state.offset = st.offset := by
  unfold KeysCommand.execute
  repeat' split
  all_goals rfl

theorem set_offset (now : Int) (st : ServerState) (msg : Msg)
    (hM : st.isMaster = true) :
    (SetCommand.execute now st msg).state.offset
      = st.offset + (match msg.parsed.tail with
        | [_, _] => msg.size
        | [_, _, px, t] =>
          if px = "px" then (if (pyIntStr? t).isSome then msg.size else 0) else 0
        | _ => 0) := by
  unfold SetCommand.execute
  repeat' split
  all_goals simp_all [ExecResult.state, ServerState.propagate]

theorem xadd_offset (now : Int) (st : ServerState) (msg : Msg)
    (hM : st.isMaster = true) :
    (XAddCommand.execute now st msg).state.offset
      = st.offset + (match msg.parsed.tail with
        | _ :: _ :: _ => msg.size
        | _ => 0) := by
  unfold XAddCommand.execute
  dsimp only
  repeat' split
  all_goals
    simp_all [ExecResult.state, ServerState.propagate, ServerState.checkStreamTriggers]

theorem wait_offset (st : ServerState) (msg : Msg) (hM : st.isMaster = true) :
    (WaitCommand.execute st msg).state.offset
      = st.offset + (match msg.parsed.tail with
        | [n, t] =>
          match pyIntStr? n, pyIntStr? t with
          | some ni, some _ =>
            if min ni (st.replicas.length : Int) ≤ (st.countSynced st.offset : Int) then 0
            else getackMsg.size
          | _, _ => 0
        | _ => 0) := by
  unfold WaitCommand.execute
  repeat' split
  all_goals
    simp_all [ExecResult.state, ServerState.propagate, ServerState.registerWaitTrigger]
  rw [if_neg (by omega)]

/-- Assembly of the per-command offset lemmas over the dispatch table. -/
theorem executeCmd_offset (now : Int) (st : ServerState) (msg : Msg) (peer : Nat)
    (c : String) (rest : List String) (hM : st.isMaster = true)
    (hp : msg.parsed = c :: rest) :
    (executeCmd now st msg peer).state.offset = st.offset + offsetDeltaSpec st msg := by
  unfold executeCmd offsetDeltaSpec
  rw [hp]
  simp only [List.headD_cons]
  by_cases h1 : pyLower c = "ping"
  · simp [h1, PingCommand.execute, ExecResult.state]
  by_cases h2 : pyLower c = "echo"
  · simp [h1, h2, echo_offset st msg]
  by_cases h3 : pyLower c = "set"
  · simp [h1, h2, h3]
    rw [set_offset now st msg hM]
    simp [hp]
  by_cases h4 : pyLower c = "get"
  · simp [h1, h2, h3, h4, get_offset now st msg]
  by_cases h5 : pyLower c = "xadd"
  · simp [h1, h2, h3, h4, h5]
    rw [xadd_offset now st msg hM]
    simp [hp]
  by_cases h6 : pyLower c = "xrange"
  · simp [h1, h2, h3, h4, h5, h6, xrange_offset now st msg]
  by_cases h7 : pyLower c = "xread"
  · simp [h1, h2, h3, h4, h5, h6, h7, xread_offset now st msg]
  by_cases h8 : pyLower c = "type"
  · simp [h1, h2, h3, h4, h5, h6, h7, h8, type_offset now st msg]
  by_cases h9 : pyLower c = "info"
  · simp [h1, h2, h3, h4, h5, h6, h7, h8, h9, info_offset st msg]
  by_cases h10 : pyLower c = "replconf"
  · simp [h1, h2, h3, h4, h5, h6, h7, h8, h9, h10, replconf_offset st msg peer]
  by_cases h11 : pyLower c = "psync"
  · simp [h1, h2, h3, h4, h5, h6, h7, h8, h9, h10, h11, psync_offset st msg]
  by_cases h12 : pyLower c = "wait"
  · simp [h1, h2, h3, h4, h5, h6, h7, h8, h9, h10, h11, h12]
    rw [wait_offset st msg hM]
    simp [hp]
  by_cases h13 : pyLower c = "config"
  · simp [h1, h2, h3, h4, h5, h6, h7, h8, h9, h10, h11, h12, h13, config_offset st msg]
  by_cases h14 : pyLower c = "keys"
  · simp [h1, h2, h3, h4, h5, h6, h7, h8, h9, h10, h11, h12, h13, h14, keys_offset st msg]
  · simp [h1, h2, h3, h4, h5, h6, h7, h8, h9, h10, h11, h12, h13, h14, ExecResult.state]

/-- C1 counterexample: the claim says the `REPLCONF GETACK *` broadcast
performed during `WAIT` does not advance the primary offset.  On a primary
with offset 10 and one replica that has only acknowledged 0, `WAIT 1 500`
takes the broadcast path; `WaitCommand.execute` awaits
`MasterServer.propagate`, which unconditionally runs `_inc_offset` - the
offset jumps from 10 to 47 (the 37-byte GETACK frame). -/
theorem c1_counterexample :
    RedisCommandHandler.handle 0 ⟨true, "r", 10, [(0, 0)], [], [], [], ⟨[]⟩⟩
        ⟨["wait", "1", "500"], 30⟩ 7
      = .ok ⟨true, "r", 47, [(0, 0)], [(1, 10)], [], [], ⟨[]⟩⟩ [.int 0]
    ∧ (RedisCommandHandler.handle 0 ⟨true, "r", 10, [(0, 0)], [], [], [], ⟨[]⟩⟩
        ⟨["wait", "1", "500"], 30⟩ 7).state.offset ≠ 10 :=
  ⟨rfl, by decide⟩

/-- C1 amended: on the primary, handling a command advances the replication
offset by exactly `len(raw(c))` iff `c` is a well-formed replicated write -
`SET k v`, `SET k v px t` with a parsable expiry, or `XADD k id ...`
(including an `XADD` whose id validation later fails, since propagation
precedes validation); reads, `REPLCONF`, unknown commands and wrong-arity
writes advance it by nothing; and - contrary to the original claim - a
`WAIT` that cannot be satisfied immediately advances it by the byte length
(37) of the `REPLCONF GETACK *` broadcast, because the broadcast goes
through `propagate`.  `offsetDeltaSpec` writes exactly this case split. -/
theorem c1_amended_offset (now : Int) (st : ServerState) (msg : Msg) (peer : Nat)
    (hM : st.isMaster = true) :
    (RedisCommandHandler.handle now st msg peer).state.offset
      = st.offset + offsetDeltaSpec st msg := by
  cases hp : msg.parsed with
  | nil =>
    unfold RedisCommandHandler.handle offsetDeltaSpec
    rw [hp]
    simp [ExecResult.state]
  | cons c rest =>
    unfold RedisCommandHandler.handle
    rw [hp]
    simp only [List.head?_cons]
    by_cases hknown : knownCommands.contains (pyLower c) = true
    · simp only [hknown, Bool.true_eq_false, if_false]
      have hexec := executeCmd_offset now st msg peer c rest hM hp
      cases hr : executeCmd now st msg peer with
      | ok st2 r =>
        rw [hr] at hexec
        simp [hM, ExecResult.state]
        exact hexec
      | crash st2 =>
        rw [hr] at hexec
        simpa [ExecResult.state] using hexec
    · have hfalse : knownCommands.contains (pyLower c) = false := by
        cases hcc : knownCommands.contains (pyLower c)
        · rfl
        · exact absurd hcc hknown
      have hset : pyLower c ≠ "set" := by
        intro h; rw [h] at hfalse; exact absurd hfalse (by decide)
      have hxadd : pyLower c ≠ "xadd" := by
        intro h; rw [h] at hfalse; exact absurd hfalse (by decide)
      have hwait : pyLower c ≠ "wait" := by
        intro h; rw [h] at hfalse; exact absurd hfalse (by decide)
      unfold offsetDeltaSpec
      rw [hfalse, hp]
      simp [hset, hxadd, hwait, ExecResult.state]

/-- Witness for C1 amended: a well-formed `SET` of raw size 23 on a primary
at offset 5 lands at offset `5 + offsetDeltaSpec _ _ = 28`. -/
theorem c1_amended_offset_witness :
    (RedisCommandHandler.handle 0 ⟨true, "r", 5, [], [], [], [], ⟨[]⟩⟩
        ⟨["set", "k", "v"], 23⟩ 7).state.offset
      = 5 + offsetDeltaSpec ⟨true, "r", 5, [], [], [], [], ⟨[]⟩⟩ ⟨["set", "k", "v"], 23⟩ :=
  c1_amended_offset 0 ⟨true, "r", 5, [], [], [], [], ⟨[]⟩⟩ ⟨["set", "k", "v"], 23⟩ 7 rfl

/-- C3: counterexample.  The spec claims `decode(encode(x)) == x` for every
supported frame kind, but `_deserialize_impl` has no `-` or `:` branch -
error strings and integers fall through to the unknown-type `(None, None)`
return, so their parsed value is `None`, not `x` - and the null bulk
`$-1\r\n` sends `_parse_number` into `int("")`, an uncaught ValueError. -/
theorem c3_counterexample :
    DRes.valueOf (deserialize (serializeImpl (RValue.error "boom")))
        ≠ some (RValue.error "boom")
    ∧ DRes.valueOf (deserialize (serializeImpl (RValue.int 7)))
        ≠ some (RValue.int 7)
    ∧ deserialize (serializeImpl RValue.nullB) = DRes.crash := by
  refine ⟨?_, ?_, rfl⟩
  · intro h
    have hn : DRes.valueOf (deserialize (serializeImpl (RValue.error "boom")))
        = none := rfl
    exact Option.noConfusion (hn ▸ h)
  · intro h
    have hn : DRes.valueOf (deserialize (serializeImpl (RValue.int 7)))
        = none := rfl
    exact Option.noConfusion (hn ▸ h)

/-- C3 (amended): the round-trip `decode(encode(x)) = x` holds exactly on
the decodable fragment - simple strings without an internal CRLF, bulk
strings, and flat arrays of bulk strings - with the consumed byte count
equal to the whole encoded frame, except that a top-level bulk string
leaves its trailing CRLF unconsumed. -/
theorem c3_amended_roundtrip (x : RValue) (h : Decodable x) :
    deserialize (serializeImpl x) = .val x (consumedLen x) := by
  cases h with
  | simple s hs =>
    rw [deser_simple_top s hs]
    congr 1
    show s.data.length + 3 = (serializeImpl (.simple s)).length
    simp [serializeImpl, crlf]
    try omega
  | bulk s => exact deser_bulk_top s
  | arrayBulks l => exact deser_array_bulks l

/-- Witness for C3 amended: the one-element command array `PING` encodes to
the 14 bytes `*1\r\n$4\r\nPING\r\n` and decodes back to itself with all
14 bytes consumed. -/
theorem c3_amended_roundtrip_witness :
    deserialize (serializeImpl (RValue.array [RValue.bulk "PING"]))
      = .val (RValue.array [RValue.bulk "PING"])
          (consumedLen (RValue.array [RValue.bulk "PING"])) := by
  have h := c3_amended_roundtrip (RValue.array (["PING"].map RValue.bulk))
    (Decodable.arrayBulks ["PING"])
  simpa using h

end MiniRedis
